import Mathlib

/-!
Shallow embedding of the okla-short video pipeline
(src/scripts/process_pipeline.py, src/scripts/transcript_manager.py,
src/database.py) and proofs about its credential pool, provider fallback
chain, per-item state machine, segment validation and retry budgets.

External collaborators (HTTP endpoints, the json module, regexes, the
random generator, the media cutter/uploader) are represented by explicit
environment values or function parameters; all repository control flow is
translated directly from the Python source.
-/

namespace OklaShort

/-! ## Gemini key pool (process_pipeline.py, class GeminiKeyManager) -/

/-- One element of the GEMINI_KEYS_JSON list: a bare string key, a dict
with a status and an optional key field, or some other JSON value
(skipped by the constructor with a warning). -/
inductive RawGeminiKey
  | str (s : String)
  | dict (status : String) (key : Option String)
  | other
deriving DecidableEq, Repr

/-- An entry of the in-memory working set `self.keys`.  `keyId` is the
entry's position in the constructed list, giving each pool record an
identity; `key` is the dict's possibly missing noun field accessed by
`self.keys[i].get('key')`. -/
structure GeminiKey where
  keyId : Nat
  key : Option String
deriving DecidableEq, Repr

/-- State of `GeminiKeyManager`: the mutable working set and the rotation
index.  `disabledKeys` is a ghost field recording every entry removed by
`disable_current_key` (the Python object pops disabled entries from the
list, so the history is otherwise lost). -/
structure GeminiKeyManager where
  keys : List GeminiKey
  current_index : Nat
  disabledKeys : List GeminiKey
deriving DecidableEq, Repr

/-- Constructor filtering of one raw key (`__init__`): strings are kept
with the string as the secret; dicts are kept only when their status is
"active"; everything else is skipped. -/
def keepRawKey : RawGeminiKey → Option (Option String)
  | .str s => some (some s)
  | .dict status k => if status = "active" then some k else none
  | .other => none

/-- The working set built by `__init__` from the raw key list, with
positional identities. -/
def initKeys (raw : List RawGeminiKey) : List GeminiKey :=
  ((raw.filterMap keepRawKey).enum).map (fun p => { keyId := p.1, key := p.2 })

/-- `GeminiKeyManager.__init__`: build the working set and start at
`random.randint(0, len-1)` when non-empty, index 0 otherwise.  The random
draw is modelled by the parameter `r` reduced modulo the pool size. -/
def GeminiKeyManager.init (raw : List RawGeminiKey) (r : Nat) : GeminiKeyManager :=
  let ks := initKeys raw
  { keys := ks
    current_index := if ks.isEmpty then 0 else r % ks.length
    disabledKeys := [] }

/-- The clamped index read by `get_current_key` (the method resets
`current_index` to 0 when it is past the end of the list before
indexing). -/
def GeminiKeyManager.readIndex (m : GeminiKeyManager) : Nat :=
  if m.keys.length ≤ m.current_index then 0 else m.current_index

/-- `get_current_key`: `None` on an empty working set, otherwise clamp the
index and return `self.keys[i].get('key')`.  The method mutates
`current_index`, so the updated manager is returned alongside the key. -/
def GeminiKeyManager.get_current_key (m : GeminiKeyManager) :
    Option String × GeminiKeyManager :=
  if m.keys.isEmpty then (none, m)
  else
    let m' := { m with current_index := m.readIndex }
    ((m'.keys.get? m'.current_index).bind GeminiKey.key, m')

/-- The pool entry `self.keys[self.current_index]` that `get_current_key`
and `disable_current_key` address. -/
def GeminiKeyManager.get_current_entry (m : GeminiKeyManager) : Option GeminiKey :=
  if m.keys.isEmpty then none else m.keys.get? m.readIndex

/-- `rotate_key`: advance the index modulo the pool size when the pool is
non-empty. -/
def GeminiKeyManager.rotate_key (m : GeminiKeyManager) : GeminiKeyManager :=
  if m.keys.isEmpty then m
  else { m with current_index := (m.current_index + 1) % m.keys.length }

/-- `disable_current_key`: when the guard `self.keys and
self.current_index < len(self.keys)` holds, mark the entry disabled, pop
it from the list and clamp the index; otherwise do nothing.  The popped
entry is recorded in the ghost `disabledKeys`. -/
def GeminiKeyManager.disable_current_key (m : GeminiKeyManager) : GeminiKeyManager :=
  if h : m.keys ≠ [] ∧ m.current_index < m.keys.length then
    let e := m.keys.get ⟨m.current_index, h.2⟩
    let ks := m.keys.eraseIdx m.current_index
    { keys := ks
      current_index := if ks.length ≤ m.current_index then 0 else m.current_index
      disabledKeys := e :: m.disabledKeys }
  else m

/-- `get_active_count`. -/
def GeminiKeyManager.get_active_count (m : GeminiKeyManager) : Nat :=
  m.keys.length

/-- The operations a caller can perform on the pool object. -/
inductive GeminiOp
  | getKey
  | rotate
  | disable
deriving DecidableEq, Repr

/-- Effect of one operation on the pool state. -/
def GeminiKeyManager.applyOp (m : GeminiKeyManager) : GeminiOp → GeminiKeyManager
  | .getKey => (m.get_current_key).2
  | .rotate => m.rotate_key
  | .disable => m.disable_current_key

/-- A sequence of pool operations. -/
def GeminiKeyManager.runOps (m : GeminiKeyManager) (ops : List GeminiOp) :
    GeminiKeyManager :=
  ops.foldl GeminiKeyManager.applyOp m

/-- Well-formedness of a pool state: the working set has no duplicate
entries and no disabled entry is still in the working set. -/
def GeminiKeyManager.WF (m : GeminiKeyManager) : Prop :=
  m.keys.Nodup ∧ ∀ e ∈ m.disabledKeys, e ∉ m.keys

/-- Bounds invariant on the rotation index. -/
def GeminiKeyManager.IndexOK (m : GeminiKeyManager) : Prop :=
  m.keys = [] ∨ m.current_index < m.keys.length

/-- Every entry of the working set carries a secret value. -/
def GeminiKeyManager.haveSecrets (m : GeminiKeyManager) : Prop :=
  ∀ e ∈ m.keys, e.key.isSome

theorem nodup_getElem_not_mem_eraseIdx {α : Type _} (l : List α) (i : Nat)
    (hn : l.Nodup) (hi : i < l.length) : l[i] ∉ l.eraseIdx i := by
  intro hmem
  rw [List.mem_eraseIdx_iff_getElem] at hmem
  obtain ⟨j, hj, hji, hval⟩ := hmem
  exact hji ((@List.Nodup.getElem_inj_iff _ _ hn j hj i hi).mp hval)

theorem GeminiKeyManager.keys_get_current_key (m : GeminiKeyManager) :
    (m.get_current_key).2.keys = m.keys := by
  unfold get_current_key
  split <;> rfl

theorem GeminiKeyManager.disabled_get_current_key (m : GeminiKeyManager) :
    (m.get_current_key).2.disabledKeys = m.disabledKeys := by
  unfold get_current_key
  split <;> rfl

theorem GeminiKeyManager.keys_rotate_key (m : GeminiKeyManager) :
    m.rotate_key.keys = m.keys := by
  unfold rotate_key
  split <;> rfl

theorem GeminiKeyManager.disabled_rotate_key (m : GeminiKeyManager) :
    m.rotate_key.disabledKeys = m.disabledKeys := by
  unfold rotate_key
  split <;> rfl

theorem GeminiKeyManager.wf_applyOp (m : GeminiKeyManager) (op : GeminiOp)
    (h : m.WF) : (m.applyOp op).WF := by
  obtain ⟨hnd, hdis⟩ := h
  cases op with
  | getKey =>
    simp only [applyOp, WF, keys_get_current_key, disabled_get_current_key]
    exact ⟨hnd, hdis⟩
  | rotate =>
    simp only [applyOp, WF, keys_rotate_key, disabled_rotate_key]
    exact ⟨hnd, hdis⟩
  | disable =>
    simp only [applyOp, disable_current_key]
    split
    · rename_i hcond
      refine ⟨hnd.eraseIdx _, ?_⟩
      intro e he
      simp only [List.mem_cons] at he
      rcases he with rfl | he
      · simpa using nodup_getElem_not_mem_eraseIdx m.keys m.current_index hnd hcond.2
      · exact fun hmem => hdis e he (List.mem_of_mem_eraseIdx hmem)
    · exact ⟨hnd, hdis⟩

theorem GeminiKeyManager.wf_runOps (m : GeminiKeyManager) (ops : List GeminiOp)
    (h : m.WF) : (m.runOps ops).WF := by
  induction ops generalizing m with
  | nil => exact h
  | cons op ops ih => exact ih _ (m.wf_applyOp op h)

/-- An operation never removes an entry from the ghost disabled list. -/
theorem GeminiKeyManager.disabled_mono_applyOp (m : GeminiKeyManager)
    (op : GeminiOp) {e : GeminiKey} (h : e ∈ m.disabledKeys) :
    e ∈ (m.applyOp op).disabledKeys := by
  cases op with
  | getKey => rw [applyOp, disabled_get_current_key]; exact h
  | rotate => rw [applyOp, disabled_rotate_key]; exact h
  | disable =>
    simp only [applyOp, disable_current_key]
    split
    · exact List.mem_cons_of_mem _ h
    · exact h

theorem GeminiKeyManager.disabled_mono_runOps (m : GeminiKeyManager)
    (ops : List GeminiOp) {e : GeminiKey} (h : e ∈ m.disabledKeys) :
    e ∈ (m.runOps ops).disabledKeys := by
  induction ops generalizing m with
  | nil => exact h
  | cons op ops ih => exact ih _ (m.disabled_mono_applyOp op h)

theorem GeminiKeyManager.init_wf (raw : List RawGeminiKey) (r : Nat) :
    (GeminiKeyManager.init raw r).WF := by
  refine ⟨?_, by intro e he; simp [GeminiKeyManager.init] at he⟩
  show (initKeys raw).Nodup
  unfold initKeys
  refine List.Nodup.map ?_ ?_
  · intro p q hpq
    have h1 : p.1 = q.1 := congrArg GeminiKey.keyId hpq
    have h2 : p.2 = q.2 := congrArg GeminiKey.key hpq
    exact Prod.ext h1 h2
  · exact ((raw.filterMap keepRawKey).nodup_enum_map_fst).of_map _

/-- Index-bounds invariant: established by the constructor. -/
theorem GeminiKeyManager.init_indexOK (raw : List RawGeminiKey) (r : Nat) :
    (GeminiKeyManager.init raw r).IndexOK := by
  unfold GeminiKeyManager.init IndexOK
  simp only
  split
  · rename_i h
    exact Or.inl (List.isEmpty_iff.mp h)
  · rename_i h
    exact Or.inr (Nat.mod_lt _ (List.length_pos.mpr fun hnil => h (by simp [hnil])))

/-- The list access performed by `get_current_key` after the clamp is
always in bounds on a non-empty working set. -/
theorem GeminiKeyManager.readIndex_lt (m : GeminiKeyManager)
    (h : m.keys ≠ []) : m.readIndex < m.keys.length := by
  have hlen : 0 < m.keys.length := List.length_pos.mpr h
  unfold readIndex
  split <;> omega

/-- Index-bounds invariant: preserved by every pool operation. -/
theorem GeminiKeyManager.indexOK_applyOp (m : GeminiKeyManager) (op : GeminiOp)
    (h : m.IndexOK) : (m.applyOp op).IndexOK := by
  cases op with
  | getKey =>
    show (m.get_current_key).2.IndexOK
    unfold get_current_key
    split
    · exact h
    · rename_i hne
      have hkeys : m.keys ≠ [] := fun hnil => hne (by simp [hnil])
      exact Or.inr (m.readIndex_lt hkeys)
  | rotate =>
    show m.rotate_key.IndexOK
    unfold rotate_key
    split
    · exact h
    · rename_i hne
      have hkeys : m.keys ≠ [] := fun hnil => hne (by simp [hnil])
      exact Or.inr (Nat.mod_lt _ (List.length_pos.mpr hkeys))
  | disable =>
    show m.disable_current_key.IndexOK
    unfold disable_current_key
    split
    · rename_i hcond
      simp only [IndexOK]
      split
      · rename_i hge
        rcases Nat.eq_zero_or_pos (m.keys.eraseIdx m.current_index).length with h0 | hpos
        · exact Or.inl (List.length_eq_zero.mp h0)
        · exact Or.inr hpos
      · rename_i hlt
        exact Or.inr (by omega)
    · exact h

/-! ## TranscriptAPI credential store (database.py ApiKey,
transcript_manager.py key management) -/

/-- A row of the `api_keys` table. -/
structure ApiKey where
  id : Nat
  service : String
  api_key : String
  email : Option String
  password : Option String
  status : String
  usage_count : Nat
  last_used : Option Nat
  disabled_reason : Option String
deriving DecidableEq, Repr

/-- The credential store together with the autoincrement counter for fresh
row ids and a logical clock standing for `datetime.utcnow()`. -/
structure TranscriptDb where
  rows : List ApiKey
  nextId : Nat
  clock : Nat
deriving DecidableEq, Repr

/-- Strict order on `last_used` used by `order_by(last_used.asc().nullsfirst())`:
a NULL timestamp sorts before every concrete one. -/
def luLt : Option Nat → Option Nat → Bool
  | none, none => false
  | none, some _ => true
  | some _, none => false
  | some a, some b => decide (a < b)

/-- One step of the LRU selection: keep the candidate with the earlier
`last_used`, preferring the earlier row on ties. -/
def lruChoose (best : Option ApiKey) (k : ApiKey) : Option ApiKey :=
  match best with
  | none => some k
  | some b => if luLt k.last_used b.last_used then some k else some b

/-- `get_active_key`: the least recently used row of the transcript
service whose status is active (first row in table order among ties). -/
def TranscriptDb.get_active_key (db : TranscriptDb) : Option ApiKey :=
  (db.rows.filter fun k => k.service = "transcript_api" && k.status = "active").foldl
    lruChoose none

/-- `mark_key_used`: bump the usage counter and stamp `last_used`. -/
def TranscriptDb.mark_key_used (db : TranscriptDb) (keyId : Nat) : TranscriptDb :=
  { db with
    rows := db.rows.map fun k =>
      if k.id = keyId then
        { k with usage_count := k.usage_count + 1, last_used := some db.clock }
      else k
    clock := db.clock + 1 }

/-- `disable_key`: set the row's status to disabled with the triggering
reason. -/
def TranscriptDb.disable_key (db : TranscriptDb) (keyId : Nat) (reason : String) :
    TranscriptDb :=
  { db with
    rows := db.rows.map fun k =>
      if k.id = keyId then
        { k with status := "disabled", disabled_reason := some reason }
      else k }

/-- Step 12 of the provisioning workflow: insert a fresh active credential
row (`db_session.add` + autoincrement id). -/
def TranscriptDb.add_key (db : TranscriptDb) (secret email password : String) :
    ApiKey × TranscriptDb :=
  let k : ApiKey :=
    { id := db.nextId
      service := "transcript_api"
      api_key := secret
      email := some email
      password := some password
      status := "active"
      usage_count := 0
      last_used := none
      disabled_reason := none }
  (k, { db with rows := db.rows ++ [k], nextId := db.nextId + 1 })

/-- The store operations the pipeline performs on transcript credentials. -/
inductive TOp
  | acquire
  | markUsed (keyId : Nat)
  | disable (keyId : Nat) (reason : String)
  | provision (secret email password : String)
deriving DecidableEq, Repr

/-- Effect of one store operation (`acquire` is a pure query). -/
def TranscriptDb.applyTOp (db : TranscriptDb) : TOp → TranscriptDb
  | .acquire => db
  | .markUsed keyId => db.mark_key_used keyId
  | .disable keyId reason => db.disable_key keyId reason
  | .provision secret email password => (db.add_key secret email password).2

/-- A sequence of store operations. -/
def TranscriptDb.runTOps (db : TranscriptDb) (ops : List TOp) : TranscriptDb :=
  ops.foldl TranscriptDb.applyTOp db

/-- Well-formedness of the store: row ids are pairwise distinct and every
row id is below the autoincrement counter (so freshly inserted rows never
collide with existing ones). -/
def TranscriptDb.TWF (db : TranscriptDb) : Prop :=
  (db.rows.map ApiKey.id).Nodup ∧ ∀ k ∈ db.rows, k.id < db.nextId

/-- An update that rewrites a row in place keeps the table's id column. -/
theorem map_update_ids (rows : List ApiKey) (f : ApiKey → ApiKey)
    (hf : ∀ k, (f k).id = k.id) :
    (rows.map f).map ApiKey.id = rows.map ApiKey.id := by
  rw [List.map_map]
  exact List.map_congr_left fun k _ => hf k

theorem TranscriptDb.twf_applyTOp (db : TranscriptDb) (op : TOp)
    (h : db.TWF) : (db.applyTOp op).TWF := by
  obtain ⟨hnd, hlt⟩ := h
  cases op with
  | acquire => exact ⟨hnd, hlt⟩
  | markUsed keyId =>
    refine ⟨?_, ?_⟩
    · show ((db.rows.map _).map ApiKey.id).Nodup
      rw [map_update_ids _ _ (fun k => by split <;> rfl)]
      exact hnd
    · intro k hk
      simp only [applyTOp, mark_key_used, List.mem_map] at hk
      obtain ⟨k0, hk0, hkeq⟩ := hk
      have := hlt k0 hk0
      subst hkeq
      split <;> simpa using this
  | disable keyId reason =>
    refine ⟨?_, ?_⟩
    · show ((db.rows.map _).map ApiKey.id).Nodup
      rw [map_update_ids _ _ (fun k => by split <;> rfl)]
      exact hnd
    · intro k hk
      simp only [applyTOp, disable_key, List.mem_map] at hk
      obtain ⟨k0, hk0, hkeq⟩ := hk
      have := hlt k0 hk0
      subst hkeq
      split <;> simpa using this
  | provision secret email password =>
    refine ⟨?_, ?_⟩
    · show ((db.rows ++ [_]).map ApiKey.id).Nodup
      rw [List.map_append]
      refine hnd.append (by simp) ?_
      intro x hx hx'
      simp only [List.map_cons, List.map_nil, List.mem_singleton] at hx'
      subst hx'
      simp only [List.mem_map] at hx
      obtain ⟨k0, hk0, hid⟩ := hx
      exact (Nat.ne_of_lt (hlt k0 hk0)) hid
    · intro k hk
      simp only [applyTOp, add_key, List.mem_append, List.mem_singleton] at hk
      rcases hk with hk | rfl
      · exact Nat.lt_succ_of_lt (hlt k hk)
      · exact Nat.lt_succ_self _

theorem TranscriptDb.twf_runTOps (db : TranscriptDb) (ops : List TOp)
    (h : db.TWF) : (db.runTOps ops).TWF := by
  induction ops generalizing db with
  | nil => exact h
  | cons op ops ih => exact ih _ (db.twf_applyTOp op h)

/-- A row that is disabled stays disabled under every store operation
(given that its id is already allocated, so a fresh insert cannot reuse
it). -/
def TranscriptDb.DisabledAt (db : TranscriptDb) (keyId : Nat) : Prop :=
  keyId < db.nextId ∧ ∀ k ∈ db.rows, k.id = keyId → k.status = "disabled"

theorem TranscriptDb.disabledAt_applyTOp (db : TranscriptDb) (op : TOp)
    (keyId : Nat) (h : db.DisabledAt keyId) : (db.applyTOp op).DisabledAt keyId := by
  obtain ⟨hlt, hall⟩ := h
  cases op with
  | acquire => exact ⟨hlt, hall⟩
  | markUsed kid =>
    refine ⟨hlt, ?_⟩
    intro k hk hid
    simp only [applyTOp, mark_key_used, List.mem_map] at hk
    obtain ⟨k0, hk0, hkeq⟩ := hk
    subst hkeq
    revert hid
    split <;> (intro hid; exact hall k0 hk0 (by simpa using hid))
  | disable kid reason =>
    refine ⟨hlt, ?_⟩
    intro k hk hid
    simp only [applyTOp, disable_key, List.mem_map] at hk
    obtain ⟨k0, hk0, hkeq⟩ := hk
    subst hkeq
    revert hid
    split
    · intro _; rfl
    · intro hid; exact hall k0 hk0 hid
  | provision secret email password =>
    refine ⟨Nat.lt_succ_of_lt hlt, ?_⟩
    intro k hk hid
    simp only [applyTOp, add_key, List.mem_append, List.mem_singleton] at hk
    rcases hk with hk | rfl
    · exact hall k hk hid
    · exact absurd hid (by simpa using Nat.ne_of_gt hlt)

theorem TranscriptDb.disabledAt_runTOps (db : TranscriptDb) (ops : List TOp)
    (keyId : Nat) (h : db.DisabledAt keyId) : (db.runTOps ops).DisabledAt keyId := by
  induction ops generalizing db with
  | nil => exact h
  | cons op ops ih => exact ih _ (db.disabledAt_applyTOp op keyId h)

/-- The LRU fold only ever selects an element of the candidate list. -/
theorem foldl_lruChoose_mem (l : List ApiKey) (acc : Option ApiKey) (k : ApiKey)
    (h : l.foldl lruChoose acc = some k) :
    k ∈ l ∨ acc = some k := by
  induction l generalizing acc with
  | nil => exact Or.inr h
  | cons x xs ih =>
    simp only [List.foldl_cons] at h
    rcases ih _ h with hk | hacc
    · exact Or.inl (List.mem_cons_of_mem _ hk)
    · cases acc with
      | none =>
        simp only [lruChoose, Option.some.injEq] at hacc
        exact Or.inl (hacc ▸ List.mem_cons_self _ _)
      | some b =>
        simp only [lruChoose] at hacc
        by_cases hf : luLt x.last_used b.last_used = true
        · rw [if_pos hf, Option.some.injEq] at hacc
          exact Or.inl (hacc ▸ List.mem_cons_self _ _)
        · rw [if_neg hf] at hacc
          exact Or.inr hacc

/-- `get_active_key` only ever returns an active row of the store. -/
theorem TranscriptDb.get_active_key_mem (db : TranscriptDb) (k : ApiKey)
    (h : db.get_active_key = some k) :
    k ∈ db.rows ∧ k.service = "transcript_api" ∧ k.status = "active" := by
  unfold get_active_key at h
  rcases foldl_lruChoose_mem _ _ _ h with hk | hbad
  · have := List.of_mem_filter hk
    simp only [Bool.and_eq_true, decide_eq_true_eq] at this
    exact ⟨List.mem_of_mem_filter hk, this.1, this.2⟩
  · exact absurd hbad (by simp)

/-! ## Provider fallback chain (process_pipeline.py,
call_huggingface_api / call_gemini_api) -/

/-- One part of a candidate content (`{'text': ...}`). -/
structure GeminiPart where
  text : String
deriving DecidableEq, Repr

/-- A candidate content (`{'parts': [...]}`). -/
structure GeminiContent where
  parts : List GeminiPart
deriving DecidableEq, Repr

/-- A response candidate (`{'content': ...}`). -/
structure GeminiCandidate where
  content : GeminiContent
deriving DecidableEq, Repr

/-- A provider response body in the primary provider's shape
(`{'candidates': [...]}`), also the shape the backup response is
normalized to. -/
structure GeminiResponse where
  candidates : List GeminiCandidate
deriving DecidableEq, Repr

/-- Environment of one `call_huggingface_api` invocation: whether the
static token is configured, and the outcome of the HTTP call — `none` for
an HTTP error or exception, otherwise the `choices` contents list. -/
structure HFEnv where
  tokenConfigured : Bool
  choices : Option (List String)
deriving DecidableEq, Repr

/-- `call_huggingface_api`: fail without a token; on a successful HTTP
response with a non-empty `choices` list, wrap the first content in the
primary provider's response shape; otherwise fail. -/
def call_huggingface_api (env : HFEnv) : Option GeminiResponse :=
  if ¬ env.tokenConfigured then none
  else
    match env.choices with
    | none => none
    | some [] => none
    | some (c :: _) =>
      some { candidates := [{ content := { parts := [{ text := c }] } }] }

/-- Outcome of one HTTP request to the primary provider, as observed by
`call_gemini_api`'s exception handlers: a parsed success body, an
`HTTPError` with `e.response.status_code` (absent when `e.response` is
None), or any other exception (timeouts and the like). -/
inductive GeminiAttemptResult
  | ok (r : GeminiResponse)
  | httpFail (code : Option Nat)
  | exnFail
deriving DecidableEq, Repr

/-- Instrumented result of `call_gemini_api`: the returned value, the key
manager as left behind, and counters for requests to the primary
endpoint, self-reinvocations, rotations and backup invocations. -/
structure GeminiCallResult where
  result : Option GeminiResponse
  manager : GeminiKeyManager
  attempts : Nat
  recursions : Nat
  rotations : Nat
  hfCalls : Nat
deriving Repr

/-- Hard cap on the self-reinvocation counter (`MAX_GEMINI_RETRIES`). -/
def MAX_GEMINI_RETRIES : Nat := 10

/-- `call_gemini_api`: acquire the current key, place the request and
dispatch on the outcome.  `env` gives the provider outcome for each value
of the retry counter (every recursive call increments it, so the counter
indexes the attempts).  A 503 rotates and re-invokes; 400/403/429 disable
the key, then rotate and re-invoke if keys remain and otherwise give up;
any other HTTP status gives up; any other exception rotates and
re-invokes.  The backup provider is consulted when the retry budget is
exhausted or no key is available at entry. -/
def call_gemini_go (env : Nat → GeminiAttemptResult) (hf : HFEnv) :
    Nat → GeminiKeyManager → Nat → GeminiCallResult
  | 0, km, _retry_count =>
    { result := call_huggingface_api hf, manager := km,
      attempts := 0, recursions := 0, rotations := 0, hfCalls := 1 }
  | fuel + 1, km, retry_count =>
  if MAX_GEMINI_RETRIES ≤ retry_count then
    { result := call_huggingface_api hf, manager := km,
      attempts := 0, recursions := 0, rotations := 0, hfCalls := 1 }
  else
    match km.get_current_key with
    | (none, km1) =>
      { result := call_huggingface_api hf, manager := km1,
        attempts := 0, recursions := 0, rotations := 0, hfCalls := 1 }
    | (some _, km1) =>
      match env retry_count with
      | .ok r =>
        { result := some r, manager := km1,
          attempts := 1, recursions := 0, rotations := 0, hfCalls := 0 }
      | .httpFail code =>
        match code with
        | some c =>
          if c = 400 ∨ c = 403 ∨ c = 429 ∨ c = 503 then
            if c = 503 then
              if 0 < km1.get_active_count then
                let km2 := km1.rotate_key
                let r := call_gemini_go env hf fuel km2 (retry_count + 1)
                { r with attempts := r.attempts + 1, recursions := r.recursions + 1,
                         rotations := r.rotations + 1 }
              else
                { result := call_huggingface_api hf, manager := km1,
                  attempts := 1, recursions := 0, rotations := 0, hfCalls := 1 }
            else
              let km2 := km1.disable_current_key
              if 0 < km2.get_active_count then
                let km3 := km2.rotate_key
                let r := call_gemini_go env hf fuel km3 (retry_count + 1)
                { r with attempts := r.attempts + 1, recursions := r.recursions + 1,
                         rotations := r.rotations + 1 }
              else
                { result := none, manager := km2,
                  attempts := 1, recursions := 0, rotations := 0, hfCalls := 0 }
          else
            { result := none, manager := km1,
              attempts := 1, recursions := 0, rotations := 0, hfCalls := 0 }
        | none =>
          { result := none, manager := km1,
            attempts := 1, recursions := 0, rotations := 0, hfCalls := 0 }
      | .exnFail =>
        if 0 < km1.get_active_count then
          let km2 := km1.rotate_key
          let r := call_gemini_go env hf fuel km2 (retry_count + 1)
          { r with attempts := r.attempts + 1, recursions := r.recursions + 1,
                   rotations := r.rotations + 1 }
        else
          { result := none, manager := km1,
            attempts := 1, recursions := 0, rotations := 0, hfCalls := 0 }
/-- `call_gemini_api` invokes the loop with enough fuel for the whole
retry budget (the structural counter only bounds the recursion depth;
every exit goes through the source's checks). -/
def call_gemini_api (env : Nat → GeminiAttemptResult) (hf : HFEnv)
    (km : GeminiKeyManager) (retry_count : Nat) : GeminiCallResult :=
  call_gemini_go env hf (MAX_GEMINI_RETRIES + 1 - retry_count) km retry_count

/-! ## Segment validation (process_pipeline.py, parse_gemini_response) -/

/-- A JSON object of the AI's `segments` list: each of the four expected
keys may be present or missing.  Times are modelled as integers (seconds,
as in the prompt's contract). -/
structure RawSegment where
  start : Option Int
  «end» : Option Int
  title : Option String
  description : Option String
deriving DecidableEq, Repr

/-- The top-level JSON object of the AI's answer after parsing: the
`segments` key may be present or missing. -/
structure SegmentsDoc where
  segments : Option (List RawSegment)
deriving DecidableEq, Repr

/-- Fence stripping from `parse_gemini_response` (and
`check_video_availability`): trim, drop a leading code fence, drop a
trailing fence, trim again. -/
def stripCodeFences (t : String) : String :=
  let t1 := t.trim
  let t2 :=
    if t1.startsWith "```json" then t1.drop 7
    else if t1.startsWith "```" then t1.drop 3
    else t1
  let t3 := if t2.endsWith "```" then t2.dropRight 3 else t2
  t3.trim

/-- Extraction of `response['candidates'][0]['content']['parts'][0]['text']`;
a missing candidate or part raises and lands in the exception handlers,
which return None. -/
def extractResponseText (r : GeminiResponse) : Option String :=
  match r.candidates.head? with
  | none => none
  | some c =>
    match c.content.parts.head? with
    | none => none
    | some p => some p.text

/-- The per-segment validation of `parse_gemini_response`: all four keys
present and `end - start ≥ 120`. -/
def validSegment (seg : RawSegment) : Bool :=
  seg.start.isSome && seg.«end».isSome && seg.title.isSome && seg.description.isSome &&
    (match seg.start, seg.«end» with
     | some a, some b => decide (120 ≤ b - a)
     | _, _ => false)

/-- `parse_gemini_response`: extract the answer text, strip markdown
fences, parse JSON (`jsonLoads` stands for Python's `json.loads`, the
external JSON library; `none` is a `JSONDecodeError`), require a
`segments` key, keep the segments passing validation, and return None
when none survive. -/
def parse_gemini_response (jsonLoads : String → Option SegmentsDoc)
    (response : GeminiResponse) : Option (List RawSegment) :=
  match extractResponseText response with
  | none => none
  | some text =>
    match jsonLoads (stripCodeFences text) with
    | none => none
    | some data =>
      match data.segments with
      | none => none
      | some segs =>
        let valid_segments := segs.filter validSegment
        if valid_segments.isEmpty then none else some valid_segments

/-! ## Transcript fetching with auto-retry (transcript_manager.py,
fetch_transcript_with_retry) -/

/-- One normalized transcript entry after the alternate-field-name
handling (`start`/`offset`, `duration`/`dur`, `text`/`content`). -/
structure TranscriptEntry where
  start : Int
  duration : Int
  text : String
deriving DecidableEq, Repr

/-- A raw element of the response's `transcript` list: a dict (normalized
to a `TranscriptEntry`) or some other JSON value, which the loop skips. -/
inductive TRawEntry
  | dict (e : TranscriptEntry)
  | nondict
deriving DecidableEq, Repr

/-- Outcome of one HTTP request to the transcript endpoint: a response
with a status code and, for parsed bodies, the optional `transcript` list
and whether an `error` key is present; a `requests` network exception; or
any other exception. -/
inductive TranscriptHttpOutcome
  | response (status : Nat) (transcript : Option (List TRawEntry)) (hasError : Bool)
  | netFail
  | exnFail
deriving DecidableEq, Repr

/-- The per-status reason recorded when disabling a transcript key. -/
def transcriptErrorMsg (status : Nat) : String :=
  if status = 401 then "Unauthorized"
  else if status = 402 then "Quota exceeded"
  else if status = 403 then "Forbidden"
  else if status = 429 then "Rate limit"
  else "HTTP " ++ toString status

/-- Instrumented result of `fetch_transcript_with_retry`: the transcript
(or None), the store as left behind, and the number of HTTP requests
placed against the transcript endpoint. -/
structure FetchResult where
  transcript : Option (List TranscriptEntry)
  db : TranscriptDb
  requests : Nat
deriving Repr

/-- Body of the retry loop of `fetch_transcript_with_retry`, from the
iteration with index `attempt` on.  `tresp` gives the endpoint outcome
for each iteration index; `autoRegister` stands for
`auto_register_and_save_key` with its environment applied (invoked when
no active key is available).  Credential-fatal statuses (401/402/403/429)
disable the key and continue; 404 marks the key used and gives up; any
other ≥400 status gives up; a non-empty transcript marks the key used
and returns it; an empty one gives up; a body with neither `transcript`
nor `error` falls through to the next iteration; a network exception
retries, any other exception gives up. -/
def fetch_transcript_go (tresp : Nat → TranscriptHttpOutcome)
    (autoRegister : TranscriptDb → Option ApiKey × TranscriptDb)
    (max_attempts : Nat) : Nat → TranscriptDb → Nat → FetchResult
  | 0, db, _attempt => { transcript := none, db := db, requests := 0 }
  | fuel + 1, db, attempt =>
  if max_attempts ≤ attempt then
    { transcript := none, db := db, requests := 0 }
  else
    let acquired : Option ApiKey × TranscriptDb :=
      match db.get_active_key with
      | some k => (some k, db)
      | none => autoRegister db
    match acquired with
    | (none, db1) =>
      fetch_transcript_go tresp autoRegister max_attempts fuel db1 (attempt + 1)
    | (some key_obj, db1) =>
      match tresp attempt with
      | .response status transcriptBody hasError =>
        if status = 401 ∨ status = 402 ∨ status = 403 ∨ status = 429 then
          let db2 := db1.disable_key key_obj.id (transcriptErrorMsg status)
          if attempt + 1 < max_attempts then
            let r := fetch_transcript_go tresp autoRegister max_attempts fuel db2 (attempt + 1)
            { r with requests := r.requests + 1 }
          else
            { transcript := none, db := db2, requests := 1 }
        else if status = 404 then
          { transcript := none, db := db1.mark_key_used key_obj.id, requests := 1 }
        else if 400 ≤ status then
          { transcript := none, db := db1, requests := 1 }
        else
          match transcriptBody with
          | some rawEntries =>
            let transcript := rawEntries.filterMap fun e =>
              match e with
              | .dict e => some e
              | .nondict => none
            if transcript.isEmpty then
              { transcript := none, db := db1, requests := 1 }
            else
              { transcript := some transcript, db := db1.mark_key_used key_obj.id,
                requests := 1 }
          | none =>
            if hasError then
              { transcript := none, db := db1, requests := 1 }
            else
              let r := fetch_transcript_go tresp autoRegister max_attempts fuel db1 (attempt + 1)
              { r with requests := r.requests + 1 }
      | .netFail =>
        if attempt + 1 < max_attempts then
          let r := fetch_transcript_go tresp autoRegister max_attempts fuel db1 (attempt + 1)
          { r with requests := r.requests + 1 }
        else
          { transcript := none, db := db1, requests := 1 }
      | .exnFail =>
        { transcript := none, db := db1, requests := 1 }

/-- `fetch_transcript_with_retry` starts the loop at iteration 0 with
enough fuel for the whole budget (the structural counter only bounds the
recursion depth; every exit goes through the source's checks). -/
def fetch_transcript_with_retry (tresp : Nat → TranscriptHttpOutcome)
    (autoRegister : TranscriptDb → Option ApiKey × TranscriptDb)
    (max_attempts : Nat) (db : TranscriptDb) : FetchResult :=
  fetch_transcript_go tresp autoRegister max_attempts max_attempts db 0

/-! ## Mailbox polling and account provisioning (transcript_manager.py,
wait_for_testmail_message / auto_register_and_save_key) -/

/-- An email as returned by the testmail.app API (`html`, `text`,
`subject` fields; empty strings stand for falsy/missing content). -/
structure TestmailEmail where
  html : String
  text : String
  subject : String
deriving DecidableEq, Repr

/-- Outcome of one poll of the namespaced inbox: a success envelope with
its (possibly empty) `emails` list, an API error envelope, a request
timeout, or any other exception. -/
inductive TestmailPollOutcome
  | success (emails : List TestmailEmail)
  | apiFail
  | timeoutFail
  | exnFail
deriving DecidableEq, Repr

/-- The polling loop of `wait_for_testmail_message` from poll number
`attempt` (1-based) on; returns the first email found together with the
number of polls placed. -/
def wait_for_testmail_go (poll : Nat → TestmailPollOutcome)
    (max_attempts : Nat) : Nat → Nat → Option TestmailEmail × Nat
  | 0, _attempt => (none, 0)
  | fuel + 1, attempt =>
  if max_attempts < attempt then (none, 0)
  else
    match poll attempt with
    | .success emails =>
      match emails.head? with
      | some e => (some e, 1)
      | none =>
        if attempt < max_attempts then
          let r := wait_for_testmail_go poll max_attempts fuel (attempt + 1)
          (r.1, r.2 + 1)
        else (none, 1)
    | .apiFail => (none, 1)
    | .timeoutFail =>
      if attempt < max_attempts then
        let r := wait_for_testmail_go poll max_attempts fuel (attempt + 1)
        (r.1, r.2 + 1)
      else (none, 1)
    | .exnFail =>
      if attempt < max_attempts then
        let r := wait_for_testmail_go poll max_attempts fuel (attempt + 1)
        (r.1, r.2 + 1)
      else (none, 1)

/-- `wait_for_testmail_message`: poll every `poll_interval` seconds for up
to `max_wait` seconds, i.e. `max_wait // poll_interval` polls (the loop is
given enough fuel for all of them). -/
def wait_for_testmail_message (poll : Nat → TestmailPollOutcome)
    (max_wait poll_interval : Nat) : Option TestmailEmail × Nat :=
  wait_for_testmail_go poll (max_wait / poll_interval) (max_wait / poll_interval) 1

/-- `extract_otp_from_testmail`: try the HTML content through the
primary extractor, then fall back to the first 6-digit run of the text
content.  The two regex extractors are passed in as functions standing
for the `re` library patterns. -/
def extract_otp_from_testmail (extractHtml extractText : String → Option String)
    (e : TestmailEmail) : Option String :=
  match (if e.html ≠ "" then extractHtml e.html else none) with
  | some otp => some otp
  | none => if e.text ≠ "" then extractText e.text else none

/-- Metadata of one mailbox in the tempmail provider's account list. -/
structure TempmailMeta where
  id : Nat
deriving DecidableEq, Repr

/-- One inbox message head; its id may be missing. -/
structure InboxItem where
  id : Option Nat
deriving DecidableEq, Repr

/-- Environment of one `auto_register_and_save_key` run: the outcome of
every external step.  Each helper catches its own exceptions and returns
None/False on failure, so an `Option`/`Bool` captures its interface. -/
structure ProvisionEnv where
  tempmailCreate : Option (String × Nat)
  testmailCreate : Option (String × String)
  registerOk : Bool
  loginToken : Option String
  sendOtpOk : Bool
  testmailMessage : Option TestmailEmail
  emailList : Option (List TempmailMeta)
  inboxItems : Option (List InboxItem)
  messageBody : Option String
  verifyOk : Bool
  apiKeyFetched : Option String
  dbSaveOk : Bool
  password : String

/-- The OTP-retrieval part of `auto_register_and_save_key` (steps 5-9),
dispatching on which mailbox provider is in use. -/
def provisionGetOtp (env : ProvisionEnv)
    (extractHtml extractText : String → Option String) :
    Sum Nat String → Option String
  | .inr _tag =>
    match env.testmailMessage with
    | none => none
    | some emailData => extract_otp_from_testmail extractHtml extractText emailData
  | .inl temp_email_id =>
    match env.emailList with
    | none => none
    | some email_list =>
      match email_list.find? (fun e => e.id = temp_email_id) with
      | none => none
      | some _our_email =>
        match env.inboxItems with
        | none => none
        | some items =>
          match items.head? with
          | none => none
          | some first_message =>
            match first_message.id with
            | none => none
            | some _message_id =>
              match env.messageBody with
              | none => none
              | some message_body => extractHtml message_body

/-- `auto_register_and_save_key` after a mailbox has been obtained:
register, log in, send the OTP, retrieve and extract the OTP, verify,
fetch the account's API key and finally persist it; any failing step
returns None and leaves the store untouched. -/
def provisionAfterMailbox (env : ProvisionEnv)
    (extractHtml extractText : String → Option String)
    (db : TranscriptDb) (email : String) (mailbox : Sum Nat String) :
    Option ApiKey × TranscriptDb :=
  if ¬ env.registerOk then (none, db)
  else
    match env.loginToken with
    | none => (none, db)
    | some _access_token =>
      if ¬ env.sendOtpOk then (none, db)
      else
        match provisionGetOtp env extractHtml extractText mailbox with
        | none => (none, db)
        | some _otp_code =>
          if ¬ env.verifyOk then (none, db)
          else
            match env.apiKeyFetched with
            | none => (none, db)
            | some api_key =>
              if env.dbSaveOk then
                let (new_key, db1) := db.add_key api_key email env.password
                (some new_key, db1)
              else (none, db)

/-- `auto_register_and_save_key`: obtain a mailbox from the primary
provider, falling back to the tag-addressed provider, then run the
registration/verification/persistence sequence. -/
def auto_register_and_save_key (env : ProvisionEnv)
    (extractHtml extractText : String → Option String)
    (db : TranscriptDb) : Option ApiKey × TranscriptDb :=
  match env.tempmailCreate with
  | some (email, temp_email_id) =>
    provisionAfterMailbox env extractHtml extractText db email (.inl temp_email_id)
  | none =>
    match env.testmailCreate with
    | some (email, email_tag) =>
      provisionAfterMailbox env extractHtml extractText db email (.inr email_tag)
    | none => (none, db)

/-! ## Per-item orchestrator (process_pipeline.py, process_single_video) -/

/-- The phase status strings written to the `playlist_videos` row. -/
inductive Status
  | pending
  | fetching
  | downloading
  | completed
  | failed
  | skipped
deriving DecidableEq, Repr

/-- The slice of a `PlaylistVideo` row the orchestrator mutates. -/
structure TaskPhases where
  transcript_status : Status
  download_status : Status
  analysis_status : Status
  conversion_status : Status
  shorts_count : Nat
  download_error : Option String
deriving DecidableEq, Repr

/-- A pending row as `main` selects it (phase defaults from database.py). -/
def initialTaskPhases : TaskPhases :=
  { transcript_status := .pending
    download_status := .pending
    analysis_status := .pending
    conversion_status := .pending
    shorts_count := 0
    download_error := none }

/-- A validated segment as consumed by the cutting/upload steps (the
analysis step only returns segments that carry all four fields). -/
structure Segment where
  start : Int
  «end» : Int
  title : String
  description : String
deriving DecidableEq, Repr

/-- A `videos` row: one produced and uploaded clip. -/
structure VideoRecord where
  title : String
  description : String
  duration : Int
deriving DecidableEq, Repr

/-- Environment of one `process_single_video` run.  The transcript fetch
is the embedded `fetch_transcript_with_retry`; the downloader, the
availability check, the analysis step and the cutter/uploader are
collaborators whose outcomes the environment fixes (`cutOk`/`uploadOk`
are indexed by the 1-based segment number of the loops). -/
structure ProcessEnv where
  tresp : Nat → TranscriptHttpOutcome
  autoRegister : TranscriptDb → Option ApiKey × TranscriptDb
  downloadResult : Option String
  available : Bool
  analysisResult : Option (List Segment)
  cutOk : Nat → Bool
  uploadOk : Nat → Bool

/-- Instrumented result of one `process_single_video` run: the final row
state, the row state at every `db_session.commit()`, the credential
store, the returned stats, whether a no-transcript record was merged,
whether the downloader was invoked, and the created `videos` rows. -/
structure ProcessResult where
  phases : TaskPhases
  trace : List TaskPhases
  db : TranscriptDb
  statsSuccess : Bool
  statsSkipped : Bool
  statsShortsCreated : Nat
  noTranscriptAdded : Bool
  downloadAttempted : Bool
  artifacts : List VideoRecord

/-- `process_single_video`: fetch the transcript first (no transcript
skips every phase and records the video in `no_transcript_videos`),
download, re-check availability (a negative check skips
download/analysis/conversion and stops), analyze, cut each segment,
mark conversion completed with the number of cut clips (failed when none
cut), then upload each cut clip and create a `videos` row per successful
upload.  The `except HTTPError` arm around the fetch is unreachable
because `fetch_transcript_with_retry` handles HTTP statuses internally
and never raises; the embedded fetch is therefore total. -/
def process_single_video (env : ProcessEnv) (tdb : TranscriptDb)
    (ts0 : TaskPhases) : ProcessResult :=
  let ts1 := { ts0 with transcript_status := .fetching }
  let fr := fetch_transcript_with_retry env.tresp env.autoRegister 3 tdb
  match fr.transcript with
  | none =>
    let ts2 := { ts1 with
      download_status := .skipped
      transcript_status := .skipped
      analysis_status := .skipped
      conversion_status := .skipped }
    { phases := ts2, trace := [ts1, ts2], db := fr.db,
      statsSuccess := false, statsSkipped := true, statsShortsCreated := 0,
      noTranscriptAdded := true, downloadAttempted := false, artifacts := [] }
  | some _transcript =>
    let ts2 := { ts1 with transcript_status := .completed }
    let ts3 := { ts2 with download_status := .downloading }
    match env.downloadResult with
    | none =>
      let ts4 := { ts3 with
        download_status := .failed
        download_error := some "Download failed" }
      { phases := ts4, trace := [ts1, ts2, ts3, ts4], db := fr.db,
        statsSuccess := false, statsSkipped := false, statsShortsCreated := 0,
        noTranscriptAdded := false, downloadAttempted := true, artifacts := [] }
    | some _video_path =>
      let ts4 := { ts3 with download_status := .completed }
      if ¬ env.available then
        let ts5 := { ts4 with
          download_status := .skipped
          analysis_status := .skipped
          conversion_status := .skipped
          download_error := some "Video unavailable or inaccessible" }
        { phases := ts5, trace := [ts1, ts2, ts3, ts4, ts5], db := fr.db,
          statsSuccess := false, statsSkipped := true, statsShortsCreated := 0,
          noTranscriptAdded := false, downloadAttempted := true, artifacts := [] }
      else
        match env.analysisResult with
        | none =>
          let ts5 := { ts4 with analysis_status := .failed }
          { phases := ts5, trace := [ts1, ts2, ts3, ts4, ts5], db := fr.db,
            statsSuccess := false, statsSkipped := false, statsShortsCreated := 0,
            noTranscriptAdded := false, downloadAttempted := true, artifacts := [] }
        | some segments =>
          let ts5 := { ts4 with analysis_status := .completed }
          let created_shorts :=
            (segments.enum.map fun p => (p.1 + 1, p.2)).filter fun p => env.cutOk p.1
          if created_shorts.isEmpty then
            let ts6 := { ts5 with conversion_status := .failed }
            { phases := ts6, trace := [ts1, ts2, ts3, ts4, ts5, ts6], db := fr.db,
              statsSuccess := false, statsSkipped := false, statsShortsCreated := 0,
              noTranscriptAdded := false, downloadAttempted := true, artifacts := [] }
          else
            let ts6 := { ts5 with
              conversion_status := .completed
              shorts_count := created_shorts.length }
            let uploaded := created_shorts.filter fun p => env.uploadOk p.1
            let artifacts := uploaded.map fun p =>
              { title := p.2.title
                description := p.2.description
                duration := p.2.«end» - p.2.start : VideoRecord }
            { phases := ts6, trace := [ts1, ts2, ts3, ts4, ts5, ts6, ts6], db := fr.db,
              statsSuccess := true, statsSkipped := false,
              statsShortsCreated := artifacts.length,
              noTranscriptAdded := false, downloadAttempted := true,
              artifacts := artifacts }

/-! ## Theorems -/

/-- C6: for every AI response text, `parse_gemini_response` rejects any
segment with `end - start < 120`, accepts any segment with all four
fields present and duration at least 120, and on malformed JSON returns
None rather than a partial or empty segment list. -/
theorem parse_gemini_response_validation
    (jsonLoads : String → Option SegmentsDoc) (response : GeminiResponse)
    (text : String) (hText : extractResponseText response = some text) :
    (jsonLoads (stripCodeFences text) = none →
      parse_gemini_response jsonLoads response = none) ∧
    (∀ segs, jsonLoads (stripCodeFences text) = some { segments := some segs } →
      (∀ seg ∈ segs, ∀ a b : Int, seg.start = some a → seg.«end» = some b →
        b - a < 120 →
        ∀ l, parse_gemini_response jsonLoads response = some l → seg ∉ l) ∧
      (∀ seg ∈ segs, ∀ (a b : Int) (ti de : String),
        seg = { start := some a, «end» := some b, title := some ti,
                description := some de } →
        120 ≤ b - a →
        ∃ l, parse_gemini_response jsonLoads response = some l ∧ seg ∈ l)) := by
  constructor
  · intro hJ
    unfold parse_gemini_response
    rw [hText]
    dsimp only
    rw [hJ]
  · intro segs hJ
    constructor
    · intro seg hseg a b ha hb hdur l hl hmem
      unfold parse_gemini_response at hl
      rw [hText] at hl
      dsimp only at hl
      rw [hJ] at hl
      dsimp only at hl
      by_cases hemp : (segs.filter validSegment).isEmpty
      · rw [if_pos hemp] at hl
        exact Option.noConfusion hl
      · rw [if_neg hemp, Option.some.injEq] at hl
        subst hl
        have hv : validSegment seg = true := List.of_mem_filter hmem
        rw [validSegment, ha, hb] at hv
        simp only [Bool.and_eq_true, decide_eq_true_eq] at hv
        omega
    · intro seg hseg a b ti de hfields hdur
      have hv : validSegment seg = true := by
        subst hfields
        simp [validSegment, hdur]
      have hmem : seg ∈ segs.filter validSegment := List.mem_filter.mpr ⟨hseg, hv⟩
      have hemp : (segs.filter validSegment).isEmpty = false := by
        cases hfil : segs.filter validSegment with
        | nil => rw [hfil] at hmem; exact absurd hmem (List.not_mem_nil _)
        | cons x xs => simp
      refine ⟨segs.filter validSegment, ?_, hmem⟩
      unfold parse_gemini_response
      rw [hText]
      dsimp only
      rw [hJ]
      dsimp only
      rw [if_neg (by simp [hemp])]

/-- Concrete instantiation of the C6 theorem: a well-formed 200-second
segment is accepted. -/
theorem parse_gemini_response_validation_witness :
    ∃ l, parse_gemini_response
        (fun _ =>
          some { segments := some [{ start := some (0 : Int), «end» := some 200,
                                     title := some "t", description := some "d" }] })
        { candidates := [{ content := { parts := [{ text := "x" }] } }] } = some l ∧
      ({ start := some (0 : Int), «end» := some 200, title := some "t",
         description := some "d" } : RawSegment) ∈ l := by
  have h := parse_gemini_response_validation
    (fun _ =>
      some { segments := some [{ start := some (0 : Int), «end» := some 200,
                                 title := some "t", description := some "d" }] })
    { candidates := [{ content := { parts := [{ text := "x" }] } }] }
    "x" (by rfl)
  exact (h.2 [{ start := some (0 : Int), «end» := some 200, title := some "t",
                description := some "d" }] rfl).2 _ (by simp) 0 200 "t" "d" rfl
    (by norm_num)

/-- C9 counterexample: a pool built from one active dict entry that lacks
the key field has a non-empty working set (`get_active_count = 1`), yet
`get_current_key` returns the none-available result — refuting the
claimed "none if and only if the working set is empty". -/
theorem gemini_pool_none_with_nonempty_pool_cex :
    ((GeminiKeyManager.init [.dict "active" none] 0).get_current_key).1 = none ∧
    (GeminiKeyManager.init [.dict "active" none] 0).get_active_count = 1 := by
  decide

/-- C9 (amended): the rotation index stays within bounds of the working
set through the constructor and every pool operation, the clamped list
access of `get_current_key` is always in range (no index error), an empty
working set is reported as a none-available result, and when every pool
entry carries a secret value `get_current_key` returns none exactly when
the working set is empty. -/
theorem gemini_pool_safety :
    (∀ (raw : List RawGeminiKey) (r : Nat), (GeminiKeyManager.init raw r).IndexOK) ∧
    (∀ (m : GeminiKeyManager) (op : GeminiOp), m.IndexOK → (m.applyOp op).IndexOK) ∧
    (∀ m : GeminiKeyManager, m.keys ≠ [] → (m.keys.get? m.readIndex).isSome) ∧
    (∀ m : GeminiKeyManager, m.keys = [] → (m.get_current_key).1 = none) ∧
    (∀ m : GeminiKeyManager, m.haveSecrets →
      ((m.get_current_key).1 = none ↔ m.keys = [])) := by
  refine ⟨GeminiKeyManager.init_indexOK, GeminiKeyManager.indexOK_applyOp, ?_, ?_, ?_⟩
  · intro m h
    rw [List.get?_eq_get (m.readIndex_lt h)]
    rfl
  · intro m h
    unfold GeminiKeyManager.get_current_key
    rw [if_pos (List.isEmpty_iff.mpr h)]
  · intro m hsec
    constructor
    · intro hnone
      by_contra hne
      obtain ⟨e, he⟩ : ∃ e, m.keys.get? m.readIndex = some e := by
        rw [List.get?_eq_get (m.readIndex_lt hne)]
        exact ⟨_, rfl⟩
      have hmem : e ∈ m.keys := List.get?_mem he
      obtain ⟨s, hs⟩ := Option.isSome_iff_exists.mp (hsec e hmem)
      have : (m.get_current_key).1 = some s := by
        unfold GeminiKeyManager.get_current_key
        rw [if_neg (by simpa using hne)]
        simp only
        rw [he]
        exact hs
      rw [this] at hnone
      exact Option.noConfusion hnone
    · intro h
      unfold GeminiKeyManager.get_current_key
      rw [if_pos (List.isEmpty_iff.mpr h)]

/-- Concrete instantiation of the amended C9 theorem on a one-entry pool
whose entry carries a secret. -/
theorem gemini_pool_safety_witness :
    (({ keys := [{ keyId := 0, key := some "k" }], current_index := 0,
        disabledKeys := [] } : GeminiKeyManager).get_current_key).1 = none ↔
    ({ keys := [{ keyId := 0, key := some "k" }], current_index := 0,
       disabledKeys := [] } : GeminiKeyManager).keys = [] :=
  gemini_pool_safety.2.2.2.2 _
    (by intro e he; rw [List.mem_singleton] at he; subst he; rfl)

/-- C5: a credential disabled by `disable_current_key` (AI pool, any run
of `get_current_key`/`rotate_key`/`disable_current_key` operations from a
constructed pool) or by `disable_key` (transcript pool) is never returned
by any subsequent acquire (`get_current_key` / `get_active_key`), even
after provisioning inserts new credentials into the store. -/
theorem disabled_credential_never_returned :
    (∀ (raw : List RawGeminiKey) (r : Nat) (ops1 ops2 : List GeminiOp) (e : GeminiKey),
      e ∈ ((GeminiKeyManager.init raw r).runOps ops1).disabledKeys →
      e ∉ (((GeminiKeyManager.init raw r).runOps ops1).runOps ops2).keys ∧
      (((GeminiKeyManager.init raw r).runOps ops1).runOps ops2).get_current_entry ≠
        some e) ∧
    (∀ (db : TranscriptDb), db.TWF → ∀ (ops1 : List TOp) (k : ApiKey),
      k ∈ (db.runTOps ops1).rows → k.status = "disabled" →
      ∀ (ops2 : List TOp) (r : ApiKey),
        ((db.runTOps ops1).runTOps ops2).get_active_key = some r → r.id ≠ k.id) := by
  constructor
  · intro raw r ops1 ops2 e he
    have hwf2 : (((GeminiKeyManager.init raw r).runOps ops1).runOps ops2).WF :=
      GeminiKeyManager.wf_runOps _ _
        (GeminiKeyManager.wf_runOps _ _ (GeminiKeyManager.init_wf raw r))
    have he2 := GeminiKeyManager.disabled_mono_runOps _ ops2 he
    have hnot := hwf2.2 e he2
    refine ⟨hnot, ?_⟩
    intro hent
    unfold GeminiKeyManager.get_current_entry at hent
    by_cases hemp : (((GeminiKeyManager.init raw r).runOps ops1).runOps ops2).keys.isEmpty
    · rw [if_pos hemp] at hent
      exact Option.noConfusion hent
    · rw [if_neg hemp] at hent
      exact hnot (List.get?_mem hent)
  · intro db htwf ops1 k hk hdis ops2 r hr
    have htwf1 := TranscriptDb.twf_runTOps db ops1 htwf
    have hdAt : (db.runTOps ops1).DisabledAt k.id := by
      refine ⟨htwf1.2 k hk, ?_⟩
      intro k2 hk2 hid
      have hk2k : k2 = k := List.inj_on_of_nodup_map htwf1.1 hk2 hk hid
      rw [hk2k]
      exact hdis
    have hdAt2 := TranscriptDb.disabledAt_runTOps _ ops2 _ hdAt
    obtain ⟨hrmem, _hsvc, hact⟩ := TranscriptDb.get_active_key_mem _ _ hr
    intro hid
    have hrdis := hdAt2.2 r hrmem hid
    rw [hact] at hrdis
    exact absurd hrdis (by decide)

/-- Concrete instantiation of the C5 theorem: the entry disabled first in
a two-key pool is gone from the working set and is not the current entry
after a further rotation. -/
theorem disabled_credential_never_returned_witness :
    ({ keyId := 0, key := some "a" } : GeminiKey) ∉
      (((GeminiKeyManager.init [.str "a", .str "b"] 0).runOps
        [.disable]).runOps [.rotate]).keys ∧
    (((GeminiKeyManager.init [.str "a", .str "b"] 0).runOps
        [.disable]).runOps [.rotate]).get_current_entry ≠
      some { keyId := 0, key := some "a" } :=
  disabled_credential_never_returned.1 [.str "a", .str "b"] 0 [.disable] [.rotate]
    { keyId := 0, key := some "a" } (by decide)

theorem call_gemini_go_recursions_le (env : Nat → GeminiAttemptResult) (hf : HFEnv) :
    ∀ (fuel : Nat) (km : GeminiKeyManager) (retry : Nat),
      (call_gemini_go env hf fuel km retry).recursions ≤
        MAX_GEMINI_RETRIES - retry := by
  intro fuel
  induction fuel with
  | zero => intro km retry; simp [call_gemini_go]
  | succ n ih =>
    intro km retry
    by_cases hb : MAX_GEMINI_RETRIES ≤ retry
    · rw [call_gemini_go, if_pos hb]
      simp
    · rw [call_gemini_go, if_neg hb]
      have hlt : retry < MAX_GEMINI_RETRIES := Nat.lt_of_not_le hb
      rcases hk : km.get_current_key with ⟨kv, km1⟩
      cases kv with
      | none => simp
      | some s =>
        cases he : env retry with
        | ok r => simp
        | httpFail code =>
          cases code with
          | none => simp
          | some c =>
            dsimp only
            split
            · split
              · split
                · dsimp only
                  have := ih (km1.rotate_key) (retry + 1)
                  omega
                · simp
              · split
                · dsimp only
                  have := ih (km1.disable_current_key.rotate_key) (retry + 1)
                  omega
                · simp
            · simp
        | exnFail =>
          dsimp only
          split
          · dsimp only
            have := ih (km1.rotate_key) (retry + 1)
            omega
          · simp

theorem fetch_transcript_go_requests_le (tresp : Nat → TranscriptHttpOutcome)
    (autoRegister : TranscriptDb → Option ApiKey × TranscriptDb)
    (max_attempts : Nat) :
    ∀ (fuel : Nat) (db : TranscriptDb) (attempt : Nat),
      (fetch_transcript_go tresp autoRegister max_attempts fuel db attempt).requests ≤
        max_attempts - attempt := by
  intro fuel
  induction fuel with
  | zero => intro db attempt; simp [fetch_transcript_go]
  | succ n ih =>
    intro db attempt
    by_cases hb : max_attempts ≤ attempt
    · rw [fetch_transcript_go, if_pos hb]
      simp
    · rw [fetch_transcript_go, if_neg hb]
      have hlt : attempt < max_attempts := Nat.lt_of_not_le hb
      dsimp only
      split
      · exact (ih _ _).trans (by omega)
      · split
        · split
          · split
            · dsimp only
              exact (Nat.add_le_add_right (ih _ _) 1).trans (by omega)
            · simp
              omega
          · split
            · simp
              omega
            · split
              · simp
                omega
              · split
                · split
                  · simp
                    omega
                  · simp
                    omega
                · split
                  · simp
                    omega
                  · dsimp only
                    exact (Nat.add_le_add_right (ih _ _) 1).trans (by omega)
        · split
          · dsimp only
            exact (Nat.add_le_add_right (ih _ _) 1).trans (by omega)
          · simp
            omega
        · simp
          omega

theorem wait_for_testmail_go_polls_le (poll : Nat → TestmailPollOutcome)
    (max_attempts : Nat) :
    ∀ (fuel attempt : Nat),
      (wait_for_testmail_go poll max_attempts fuel attempt).2 ≤
        max_attempts + 1 - attempt := by
  intro fuel
  induction fuel with
  | zero => intro attempt; simp [wait_for_testmail_go]
  | succ n ih =>
    intro attempt
    by_cases hb : max_attempts < attempt
    · rw [wait_for_testmail_go, if_pos hb]
      simp
    · rw [wait_for_testmail_go, if_neg hb]
      have hle : attempt ≤ max_attempts := Nat.le_of_not_lt hb
      dsimp only
      split
      · split
        · simp
          omega
        · split
          · dsimp only
            have := ih (attempt + 1)
            omega
          · simp
            omega
      · simp
        omega
      · split
        · dsimp only
          have := ih (attempt + 1)
          omega
        · simp
          omega
      · split
        · dsimp only
          have := ih (attempt + 1)
          omega
        · simp
          omega

/-- C10: every retry path has a numeric budget: `call_gemini_api` never
re-invokes itself more than MAX_GEMINI_RETRIES (10) times for one prompt,
`fetch_transcript_with_retry` places at most `max_attempts` HTTP requests,
and `wait_for_testmail_message` places at most
`max_wait / poll_interval` polls. -/
theorem retry_budgets_bounded :
    (∀ (env : Nat → GeminiAttemptResult) (hf : HFEnv) (km : GeminiKeyManager),
      (call_gemini_api env hf km 0).recursions ≤ MAX_GEMINI_RETRIES) ∧
    (∀ (tresp : Nat → TranscriptHttpOutcome)
      (autoRegister : TranscriptDb → Option ApiKey × TranscriptDb)
      (max_attempts : Nat) (db : TranscriptDb),
      (fetch_transcript_with_retry tresp autoRegister max_attempts db).requests ≤
        max_attempts) ∧
    (∀ (poll : Nat → TestmailPollOutcome) (max_wait poll_interval : Nat),
      (wait_for_testmail_message poll max_wait poll_interval).2 ≤
        max_wait / poll_interval) := by
  refine ⟨?_, ?_, ?_⟩
  · intro env hf km
    have := call_gemini_go_recursions_le env hf (MAX_GEMINI_RETRIES + 1 - 0) km 0
    simpa [call_gemini_api] using this
  · intro tresp autoRegister max_attempts db
    have := fetch_transcript_go_requests_le tresp autoRegister max_attempts
      max_attempts db 0
    simpa [fetch_transcript_with_retry] using this
  · intro poll max_wait poll_interval
    have h := wait_for_testmail_go_polls_le poll (max_wait / poll_interval)
      (max_wait / poll_interval) 1
    have h2 : max_wait / poll_interval + 1 - 1 = max_wait / poll_interval :=
      Nat.succ_sub_one _
    rw [h2] at h
    simp only [wait_for_testmail_message]
    exact h

/-- A provider response in the credential-fatal class that
`call_gemini_api` reacts to by disabling the key (400/403/429; 401 and
402 fall outside the handled set). -/
def isCredFatalResp : GeminiAttemptResult → Prop
  | .httpFail (some c) => c = 400 ∨ c = 403 ∨ c = 429
  | _ => False

theorem GeminiKeyManager.get_current_key_some (m : GeminiKeyManager)
    (h : m.keys ≠ []) (hs : m.haveSecrets) :
    ∃ s, (m.get_current_key).1 = some s := by
  obtain ⟨e, he⟩ : ∃ e, m.keys.get? m.readIndex = some e :=
    ⟨_, List.get?_eq_get (m.readIndex_lt h)⟩
  obtain ⟨s, hks⟩ := Option.isSome_iff_exists.mp (hs e (List.get?_mem he))
  refine ⟨s, ?_⟩
  unfold get_current_key
  rw [if_neg (by simpa using h)]
  simp only
  rw [he]
  exact hks

theorem GeminiKeyManager.index_get_current_key (m : GeminiKeyManager)
    (h : m.keys ≠ []) :
    (m.get_current_key).2.current_index < (m.get_current_key).2.keys.length := by
  unfold get_current_key
  rw [if_neg (by simpa using h)]
  exact m.readIndex_lt h

theorem GeminiKeyManager.disable_keys_of_lt (m : GeminiKeyManager)
    (h : m.keys ≠ []) (hidx : m.current_index < m.keys.length) :
    m.disable_current_key.keys = m.keys.eraseIdx m.current_index := by
  unfold disable_current_key
  rw [dif_pos ⟨h, hidx⟩]

theorem call_gemini_go_hfCalls_le (env : Nat → GeminiAttemptResult) (hf : HFEnv) :
    ∀ (fuel : Nat) (km : GeminiKeyManager) (retry : Nat),
      (call_gemini_go env hf fuel km retry).hfCalls ≤ 1 := by
  intro fuel
  induction fuel with
  | zero => intro km retry; simp [call_gemini_go]
  | succ n ih =>
    intro km retry
    by_cases hb : MAX_GEMINI_RETRIES ≤ retry
    · rw [call_gemini_go, if_pos hb]
    · rw [call_gemini_go, if_neg hb]
      rcases hk : km.get_current_key with ⟨kv, km1⟩
      cases kv with
      | none => simp
      | some s =>
        cases he : env retry with
        | ok r => simp
        | httpFail code =>
          cases code with
          | none => simp
          | some c =>
            dsimp only
            split
            · split
              · split
                · dsimp only
                  exact ih (km1.rotate_key) (retry + 1)
                · simp
              · split
                · dsimp only
                  exact ih (km1.disable_current_key.rotate_key) (retry + 1)
                · simp
            · simp
        | exnFail =>
          dsimp only
          split
          · dsimp only
            exact ih (km1.rotate_key) (retry + 1)
          · simp

theorem call_gemini_api_empty_pool (env : Nat → GeminiAttemptResult) (hf : HFEnv)
    (km : GeminiKeyManager) (retry : Nat) (h : km.keys = []) :
    (call_gemini_api env hf km retry).hfCalls = 1 ∧
    (call_gemini_api env hf km retry).result = call_huggingface_api hf := by
  unfold call_gemini_api
  cases hfuel : MAX_GEMINI_RETRIES + 1 - retry with
  | zero => exact ⟨rfl, rfl⟩
  | succ f =>
    rw [call_gemini_go]
    by_cases hb : MAX_GEMINI_RETRIES ≤ retry
    · rw [if_pos hb]
      exact ⟨rfl, rfl⟩
    · rw [if_neg hb]
      have hg : km.get_current_key = (none, km) := by
        unfold GeminiKeyManager.get_current_key
        rw [if_pos (List.isEmpty_iff.mpr h)]
      rw [hg]
      exact ⟨rfl, rfl⟩

theorem gemini_all_fatal_aux (env : Nat → GeminiAttemptResult) (henv : HFEnv)
    (hfatal : ∀ i, isCredFatalResp (env i)) :
    ∀ (n : Nat) (km : GeminiKeyManager) (retry : Nat),
      km.keys.length = n → km.keys ≠ [] → km.haveSecrets →
      n ≤ MAX_GEMINI_RETRIES - retry →
      (call_gemini_api env henv km retry).result = none ∧
      (call_gemini_api env henv km retry).hfCalls = 0 := by
  intro n
  induction n with
  | zero =>
    intro km retry hlen hne _ _
    exact absurd (List.length_eq_zero.mp hlen) hne
  | succ n ih =>
    intro km retry hlen hne hsec hbud
    have hretry : retry < MAX_GEMINI_RETRIES := by omega
    obtain ⟨f, hfuel⟩ : ∃ f, MAX_GEMINI_RETRIES + 1 - retry = f + 1 :=
      ⟨MAX_GEMINI_RETRIES - retry, by omega⟩
    unfold call_gemini_api
    rw [hfuel, call_gemini_go, if_neg (by omega)]
    obtain ⟨s, hs1⟩ := km.get_current_key_some hne hsec
    rcases hgk : km.get_current_key with ⟨kv, km1⟩
    rw [hgk] at hs1
    simp only at hs1
    subst hs1
    have hkm1keys : km1.keys = km.keys := by
      have := km.keys_get_current_key
      rw [hgk] at this
      exact this
    have hkm1idx : km1.current_index < km1.keys.length := by
      have := km.index_get_current_key hne
      rw [hgk] at this
      exact this
    have hfr := hfatal retry
    cases he : env retry with
    | ok r => rw [he] at hfr; exact absurd hfr (by simp [isCredFatalResp])
    | exnFail => rw [he] at hfr; exact absurd hfr (by simp [isCredFatalResp])
    | httpFail code =>
      rw [he] at hfr
      cases code with
      | none => exact absurd hfr (by simp [isCredFatalResp])
      | some c =>
        have hc : c = 400 ∨ c = 403 ∨ c = 429 := hfr
        have hc503 : ¬ c = 503 := by rcases hc with rfl | rfl | rfl <;> decide
        dsimp only
        rw [if_pos (by rcases hc with rfl | rfl | rfl <;> simp), if_neg hc503]
        have hdk : km1.disable_current_key.keys = km1.keys.eraseIdx km1.current_index :=
          km1.disable_keys_of_lt (by rw [hkm1keys]; exact hne) hkm1idx
        have hdlen : km1.disable_current_key.keys.length = n := by
          rw [hdk, List.length_eraseIdx_of_lt hkm1idx, hkm1keys, hlen]
          omega
        cases hn : n with
        | zero =>
          rw [if_neg (by simp [GeminiKeyManager.get_active_count, hdlen, hn])]
          exact ⟨rfl, rfl⟩
        | succ m =>
          rw [if_pos (by simp [GeminiKeyManager.get_active_count, hdlen, hn])]
          have hkeys3 : km1.disable_current_key.rotate_key.keys =
              km1.keys.eraseIdx km1.current_index := by
            rw [GeminiKeyManager.keys_rotate_key, hdk]
          have hlen3 : km1.disable_current_key.rotate_key.keys.length = n := by
            rw [GeminiKeyManager.keys_rotate_key, hdlen]
          have hne3 : km1.disable_current_key.rotate_key.keys ≠ [] := by
            intro hnil
            rw [hnil] at hlen3
            simp at hlen3
            omega
          have hsec3 : km1.disable_current_key.rotate_key.haveSecrets := by
            intro e hemem
            rw [hkeys3] at hemem
            exact hsec e (by rw [← hkm1keys]; exact List.mem_of_mem_eraseIdx hemem)
          have hth := ih (km1.disable_current_key.rotate_key) (retry + 1)
            hlen3 hne3 hsec3 (by omega)
          unfold call_gemini_api at hth
          rw [show MAX_GEMINI_RETRIES + 1 - (retry + 1) = f by omega] at hth
          dsimp only
          exact hth

/-- C3 counterexample: with one pooled credential and a credential-fatal
(403) response, `call_gemini_api` disables the last key, empties the
working set and returns failure WITHOUT invoking the secondary provider —
zero invocations, not exactly one, even though the backup (here
configured and answering) would have succeeded. -/
theorem backup_not_invoked_on_exhaustion_cex :
    (call_gemini_api (fun _ => .httpFail (some 403))
      { tokenConfigured := true, choices := some ["ok"] }
      (GeminiKeyManager.init [.str "k1"] 0) 0).hfCalls = 0 ∧
    (call_gemini_api (fun _ => .httpFail (some 403))
      { tokenConfigured := true, choices := some ["ok"] }
      (GeminiKeyManager.init [.str "k1"] 0) 0).result = none := by
  decide

/-- C3 (amended): the secondary provider is invoked at most once per call;
it is invoked exactly once when the working set is already empty at
acquisition time (and then its result is returned); but when the call
itself exhausts the pool — every response credential-fatal until the last
key is disabled (pool size within the retry budget) — the chain returns
failure without invoking the secondary provider at all. -/
theorem backup_invocation_characterization :
    (∀ (env : Nat → GeminiAttemptResult) (hf : HFEnv) (km : GeminiKeyManager)
      (retry : Nat), (call_gemini_api env hf km retry).hfCalls ≤ 1) ∧
    (∀ (env : Nat → GeminiAttemptResult) (hf : HFEnv) (km : GeminiKeyManager)
      (retry : Nat), km.keys = [] →
      (call_gemini_api env hf km retry).hfCalls = 1 ∧
      (call_gemini_api env hf km retry).result = call_huggingface_api hf) ∧
    (∀ (env : Nat → GeminiAttemptResult) (hf : HFEnv) (km : GeminiKeyManager)
      (retry : Nat), km.keys ≠ [] → km.haveSecrets →
      km.keys.length ≤ MAX_GEMINI_RETRIES - retry →
      (∀ i, isCredFatalResp (env i)) →
      (call_gemini_api env hf km retry).hfCalls = 0 ∧
      (call_gemini_api env hf km retry).result = none) := by
  refine ⟨?_, ?_, ?_⟩
  · intro env hf km retry
    exact call_gemini_go_hfCalls_le env hf _ km retry
  · intro env hf km retry h
    exact call_gemini_api_empty_pool env hf km retry h
  · intro env hf km retry hne hsec hbud hfatal
    have := gemini_all_fatal_aux env hf hfatal km.keys.length km retry rfl hne hsec hbud
    exact ⟨this.2, this.1⟩

/-- Concrete instantiation of the amended C3 theorem: two credentials,
both hit by 403, zero backup invocations. -/
theorem backup_invocation_characterization_witness :
    (call_gemini_api (fun _ => .httpFail (some 403))
      { tokenConfigured := true, choices := some ["ok"] }
      (GeminiKeyManager.init [.str "k1", .str "k2"] 0) 0).hfCalls = 0 ∧
    (call_gemini_api (fun _ => .httpFail (some 403))
      { tokenConfigured := true, choices := some ["ok"] }
      (GeminiKeyManager.init [.str "k1", .str "k2"] 0) 0).result = none :=
  backup_invocation_characterization.2.2 _ _ _ 0 (by decide)
    (by intro e he; fin_cases he <;> rfl) (by decide)
    (fun i => by simp [isCredFatalResp])

theorem GeminiKeyManager.disable_disabled_of_lt (m : GeminiKeyManager)
    (h : m.keys ≠ []) (hidx : m.current_index < m.keys.length) :
    m.disable_current_key.disabledKeys =
      m.keys.get ⟨m.current_index, hidx⟩ :: m.disabledKeys := by
  unfold disable_current_key
  rw [dif_pos ⟨h, hidx⟩]

theorem call_gemini_api_step_503 (env : Nat → GeminiAttemptResult) (hf : HFEnv)
    (km : GeminiKeyManager) (retry : Nat)
    (hretry : retry < MAX_GEMINI_RETRIES)
    (hne : km.keys ≠ []) (hsec : km.haveSecrets)
    (he : env retry = .httpFail (some 503)) :
    call_gemini_api env hf km retry =
      (let r := call_gemini_api env hf ((km.get_current_key).2.rotate_key) (retry + 1)
       { r with attempts := r.attempts + 1, recursions := r.recursions + 1,
                rotations := r.rotations + 1 }) := by
  obtain ⟨f, hfuel⟩ : ∃ f, MAX_GEMINI_RETRIES + 1 - retry = f + 1 :=
    ⟨MAX_GEMINI_RETRIES - retry, by omega⟩
  unfold call_gemini_api
  rw [hfuel, call_gemini_go, if_neg (by omega)]
  obtain ⟨s, hs1⟩ := km.get_current_key_some hne hsec
  rcases hgk : km.get_current_key with ⟨kv, km1⟩
  rw [hgk] at hs1
  simp only at hs1
  subst hs1
  have hkm1keys : km1.keys = km.keys := by
    have := km.keys_get_current_key
    rw [hgk] at this
    exact this
  rw [he]
  dsimp only
  rw [if_pos (by simp), if_pos rfl,
    if_pos (by simp [GeminiKeyManager.get_active_count, hkm1keys,
      List.length_pos.mpr hne])]
  rw [show MAX_GEMINI_RETRIES + 1 - (retry + 1) = f by omega]

theorem call_gemini_api_step_fatal (env : Nat → GeminiAttemptResult) (hf : HFEnv)
    (km : GeminiKeyManager) (retry : Nat) (c : Nat)
    (hretry : retry < MAX_GEMINI_RETRIES)
    (hne : km.keys ≠ []) (hsec : km.haveSecrets)
    (hc : c = 400 ∨ c = 403 ∨ c = 429)
    (he : env retry = .httpFail (some c)) :
    (0 < (km.get_current_key).2.disable_current_key.get_active_count →
      call_gemini_api env hf km retry =
        (let r := call_gemini_api env hf
            ((km.get_current_key).2.disable_current_key.rotate_key) (retry + 1)
         { r with attempts := r.attempts + 1, recursions := r.recursions + 1,
                  rotations := r.rotations + 1 })) ∧
    ((km.get_current_key).2.disable_current_key.get_active_count = 0 →
      call_gemini_api env hf km retry =
        { result := none, manager := (km.get_current_key).2.disable_current_key,
          attempts := 1, recursions := 0, rotations := 0, hfCalls := 0 }) := by
  obtain ⟨f, hfuel⟩ : ∃ f, MAX_GEMINI_RETRIES + 1 - retry = f + 1 :=
    ⟨MAX_GEMINI_RETRIES - retry, by omega⟩
  have hc503 : ¬ c = 503 := by rcases hc with rfl | rfl | rfl <;> decide
  obtain ⟨s, hs1⟩ := km.get_current_key_some hne hsec
  rcases hgk : km.get_current_key with ⟨kv, km1⟩
  rw [hgk] at hs1
  simp only at hs1
  subst hs1
  constructor
  · intro hpos
    unfold call_gemini_api
    rw [hfuel, call_gemini_go, if_neg (by omega), hgk]
    dsimp only
    rw [he]
    dsimp only
    rw [if_pos (by rcases hc with rfl | rfl | rfl <;> simp), if_neg hc503,
      if_pos hpos, show MAX_GEMINI_RETRIES + 1 - (retry + 1) = f by omega]
  · intro hzero
    unfold call_gemini_api
    rw [hfuel, call_gemini_go, if_neg (by omega), hgk]
    dsimp only
    rw [he]
    dsimp only
    rw [if_pos (by rcases hc with rfl | rfl | rfl <;> simp), if_neg hc503,
      if_neg (by simp only at hzero; omega)]

theorem call_gemini_api_step_unhandled (env : Nat → GeminiAttemptResult)
    (hf : HFEnv) (km : GeminiKeyManager) (retry : Nat) (c : Nat)
    (hretry : retry < MAX_GEMINI_RETRIES)
    (hne : km.keys ≠ []) (hsec : km.haveSecrets)
    (hc : ¬ (c = 400 ∨ c = 403 ∨ c = 429 ∨ c = 503))
    (he : env retry = .httpFail (some c)) :
    call_gemini_api env hf km retry =
      { result := none, manager := (km.get_current_key).2,
        attempts := 1, recursions := 0, rotations := 0, hfCalls := 0 } := by
  obtain ⟨f, hfuel⟩ : ∃ f, MAX_GEMINI_RETRIES + 1 - retry = f + 1 :=
    ⟨MAX_GEMINI_RETRIES - retry, by omega⟩
  obtain ⟨s, hs1⟩ := km.get_current_key_some hne hsec
  rcases hgk : km.get_current_key with ⟨kv, km1⟩
  rw [hgk] at hs1
  simp only at hs1
  subst hs1
  unfold call_gemini_api
  rw [hfuel, call_gemini_go, if_neg (by omega), hgk]
  dsimp only
  rw [he]
  dsimp only
  rw [if_neg hc]

theorem fetch_step_fatal (tresp : Nat → TranscriptHttpOutcome)
    (autoRegister : TranscriptDb → Option ApiKey × TranscriptDb)
    (max_attempts : Nat) (db : TranscriptDb) (k : ApiKey) (c : Nat)
    (tb : Option (List TRawEntry)) (herr : Bool)
    (hk : db.get_active_key = some k)
    (hc : c = 401 ∨ c = 402 ∨ c = 403 ∨ c = 429)
    (ht : tresp 0 = .response c tb herr)
    (hmax : 2 ≤ max_attempts) :
    fetch_transcript_with_retry tresp autoRegister max_attempts db =
      (let r := fetch_transcript_go tresp autoRegister max_attempts
          (max_attempts - 1) (db.disable_key k.id (transcriptErrorMsg c)) 1
       { r with requests := r.requests + 1 }) := by
  obtain ⟨f, hf⟩ : ∃ f, max_attempts = f + 1 := ⟨max_attempts - 1, by omega⟩
  subst hf
  unfold fetch_transcript_with_retry
  rw [fetch_transcript_go, if_neg (by omega)]
  dsimp only
  rw [hk]
  dsimp only
  rw [ht]
  dsimp only
  rw [if_pos (by rcases hc with rfl | rfl | rfl | rfl <;> simp),
    if_pos (by omega)]
  norm_num

theorem fetch_step_503 (tresp : Nat → TranscriptHttpOutcome)
    (autoRegister : TranscriptDb → Option ApiKey × TranscriptDb)
    (max_attempts : Nat) (db : TranscriptDb) (k : ApiKey)
    (tb : Option (List TRawEntry)) (herr : Bool)
    (hk : db.get_active_key = some k)
    (ht : tresp 0 = .response 503 tb herr)
    (hmax : 1 ≤ max_attempts) :
    fetch_transcript_with_retry tresp autoRegister max_attempts db =
      { transcript := none, db := db, requests := 1 } := by
  obtain ⟨f, hf⟩ : ∃ f, max_attempts = f + 1 := ⟨max_attempts - 1, by omega⟩
  subst hf
  unfold fetch_transcript_with_retry
  rw [fetch_transcript_go, if_neg (by omega)]
  dsimp only
  rw [hk]
  dsimp only
  rw [ht]
  dsimp only
  rw [if_neg (by simp), if_neg (by simp), if_pos (by omega)]

/-- C4 counterexample: with an active pooled credential and an HTTP 401
response, `call_gemini_api` neither disables the credential nor rotates
nor retries: it places one request, leaves the manager's disabled-key
history empty and returns failure — refuting that the AI-provider path
treats 401 as credential-fatal (disable, rotate, continue). -/
theorem gemini_401_not_disabling_cex :
    (call_gemini_api (fun _ => .httpFail (some 401))
      { tokenConfigured := false, choices := none }
      (GeminiKeyManager.init [.str "k1", .str "k2"] 0) 0).result = none ∧
    (call_gemini_api (fun _ => .httpFail (some 401))
      { tokenConfigured := false, choices := none }
      (GeminiKeyManager.init [.str "k1", .str "k2"] 0) 0).manager.disabledKeys = [] ∧
    (call_gemini_api (fun _ => .httpFail (some 401))
      { tokenConfigured := false, choices := none }
      (GeminiKeyManager.init [.str "k1", .str "k2"] 0) 0).recursions = 0 ∧
    (call_gemini_api (fun _ => .httpFail (some 401))
      { tokenConfigured := false, choices := none }
      (GeminiKeyManager.init [.str "k1", .str "k2"] 0) 0).attempts = 1 := by
  decide

/-- C4 (amended): in the AI-provider path a 503 rotates the credential
and re-invokes the call without disabling anything, 400/403/429 disable
the current credential and continue with the next one (or give up when
the pool empties), while 401/402 terminate the call at once without
disabling or retrying; in the transcript path 401/402/403/429 disable the
key and the loop continues with the next attempt, while a 503 terminates
the call after a single request, leaving every credential untouched. -/
theorem error_class_handling :
    (∀ (env : Nat → GeminiAttemptResult) (hf : HFEnv) (km : GeminiKeyManager)
      (retry : Nat), retry < MAX_GEMINI_RETRIES → km.keys ≠ [] → km.haveSecrets →
      env retry = .httpFail (some 503) →
      call_gemini_api env hf km retry =
        (let r := call_gemini_api env hf ((km.get_current_key).2.rotate_key)
            (retry + 1)
         { r with attempts := r.attempts + 1, recursions := r.recursions + 1,
                  rotations := r.rotations + 1 }) ∧
      ((km.get_current_key).2.rotate_key).disabledKeys = km.disabledKeys) ∧
    (∀ (env : Nat → GeminiAttemptResult) (hf : HFEnv) (km : GeminiKeyManager)
      (retry c : Nat), retry < MAX_GEMINI_RETRIES → km.keys ≠ [] → km.haveSecrets →
      (c = 400 ∨ c = 403 ∨ c = 429) → env retry = .httpFail (some c) →
      (∃ e ∈ km.keys,
        (km.get_current_key).2.disable_current_key.disabledKeys =
          e :: km.disabledKeys) ∧
      (0 < (km.get_current_key).2.disable_current_key.get_active_count →
        call_gemini_api env hf km retry =
          (let r := call_gemini_api env hf
              ((km.get_current_key).2.disable_current_key.rotate_key) (retry + 1)
           { r with attempts := r.attempts + 1, recursions := r.recursions + 1,
                    rotations := r.rotations + 1 })) ∧
      ((km.get_current_key).2.disable_current_key.get_active_count = 0 →
        call_gemini_api env hf km retry =
          { result := none, manager := (km.get_current_key).2.disable_current_key,
            attempts := 1, recursions := 0, rotations := 0, hfCalls := 0 })) ∧
    (∀ (env : Nat → GeminiAttemptResult) (hf : HFEnv) (km : GeminiKeyManager)
      (retry c : Nat), retry < MAX_GEMINI_RETRIES → km.keys ≠ [] → km.haveSecrets →
      (c = 401 ∨ c = 402) → env retry = .httpFail (some c) →
      call_gemini_api env hf km retry =
        { result := none, manager := (km.get_current_key).2,
          attempts := 1, recursions := 0, rotations := 0, hfCalls := 0 } ∧
      ((km.get_current_key).2).disabledKeys = km.disabledKeys) ∧
    (∀ (tresp : Nat → TranscriptHttpOutcome)
      (autoRegister : TranscriptDb → Option ApiKey × TranscriptDb)
      (max_attempts : Nat) (db : TranscriptDb) (k : ApiKey) (c : Nat)
      (tb : Option (List TRawEntry)) (herr : Bool),
      db.get_active_key = some k →
      (c = 401 ∨ c = 402 ∨ c = 403 ∨ c = 429) →
      tresp 0 = .response c tb herr → 2 ≤ max_attempts →
      fetch_transcript_with_retry tresp autoRegister max_attempts db =
        (let r := fetch_transcript_go tresp autoRegister max_attempts
            (max_attempts - 1) (db.disable_key k.id (transcriptErrorMsg c)) 1
         { r with requests := r.requests + 1 })) ∧
    (∀ (tresp : Nat → TranscriptHttpOutcome)
      (autoRegister : TranscriptDb → Option ApiKey × TranscriptDb)
      (max_attempts : Nat) (db : TranscriptDb) (k : ApiKey)
      (tb : Option (List TRawEntry)) (herr : Bool),
      db.get_active_key = some k → tresp 0 = .response 503 tb herr →
      1 ≤ max_attempts →
      fetch_transcript_with_retry tresp autoRegister max_attempts db =
        { transcript := none, db := db, requests := 1 }) := by
  refine ⟨?_, ?_, ?_, ?_, ?_⟩
  · intro env hf km retry hretry hne hsec he
    refine ⟨call_gemini_api_step_503 env hf km retry hretry hne hsec he, ?_⟩
    rw [GeminiKeyManager.disabled_rotate_key, GeminiKeyManager.disabled_get_current_key]
  · intro env hf km retry c hretry hne hsec hc he
    have hstep := call_gemini_api_step_fatal env hf km retry c hretry hne hsec hc he
    refine ⟨?_, hstep.1, hstep.2⟩
    have hidx : (km.get_current_key).2.current_index <
        (km.get_current_key).2.keys.length := km.index_get_current_key hne
    have hne1 : (km.get_current_key).2.keys ≠ [] := by
      rw [km.keys_get_current_key]
      exact hne
    refine ⟨(km.get_current_key).2.keys.get ⟨(km.get_current_key).2.current_index, hidx⟩,
      ?_, ?_⟩
    · rw [← km.keys_get_current_key]
      exact List.get_mem _ _ _
    · rw [GeminiKeyManager.disable_disabled_of_lt _ hne1 hidx,
        GeminiKeyManager.disabled_get_current_key]
  · intro env hf km retry c hretry hne hsec hc he
    refine ⟨call_gemini_api_step_unhandled env hf km retry c hretry hne hsec ?_ he,
      km.disabled_get_current_key⟩
    rcases hc with rfl | rfl <;> simp
  · intro tresp autoRegister max_attempts db k c tb herr hk hc ht hmax
    exact fetch_step_fatal tresp autoRegister max_attempts db k c tb herr hk hc ht hmax
  · intro tresp autoRegister max_attempts db k tb herr hk ht hmax
    exact fetch_step_503 tresp autoRegister max_attempts db k tb herr hk ht hmax

/-- Concrete instantiation of the amended C4 theorem: a 503 from the
transcript endpoint ends the fetch after one request with the store
untouched. -/
theorem error_class_handling_witness :
    fetch_transcript_with_retry (fun _ => .response 503 none false)
      (fun db => (none, db)) 3
      { rows := [{ id := 1, service := "transcript_api", api_key := "tk",
                   email := none, password := none, status := "active",
                   usage_count := 0, last_used := none, disabled_reason := none }],
        nextId := 2, clock := 0 } =
      { transcript := none,
        db := { rows := [{ id := 1, service := "transcript_api", api_key := "tk",
                           email := none, password := none, status := "active",
                           usage_count := 0, last_used := none,
                           disabled_reason := none }],
                nextId := 2, clock := 0 },
        requests := 1 } :=
  error_class_handling.2.2.2.2 _ _ 3 _
    { id := 1, service := "transcript_api", api_key := "tk",
      email := none, password := none, status := "active",
      usage_count := 0, last_used := none, disabled_reason := none }
    none false (by decide) rfl (by decide)

/-- A one-active-row credential store used by the concrete orchestrator
scenarios. -/
def sampleDb : TranscriptDb :=
  { rows := [{ id := 1, service := "transcript_api", api_key := "tk",
               email := none, password := none, status := "active",
               usage_count := 0, last_used := none, disabled_reason := none }]
    nextId := 2
    clock := 0 }

/-- A status transition the §4.4 per-phase orderings allow: stay, leave
the pending start, or move from an in-progress marker to a terminal
status. -/
def forwardStatus (a b : Status) : Prop :=
  a = b ∨ a = .pending ∨
    ((a = .fetching ∨ a = .downloading) ∧
      (b = .completed ∨ b = .failed ∨ b = .skipped))

/-- Download transitions additionally include completed→skipped, the step
the negative availability re-check takes. -/
def downloadStep (a b : Status) : Prop :=
  forwardStatus a b ∨ (a = .completed ∧ b = .skipped)

/-- One admissible transition between two consecutive committed row
states. -/
def phasesStep (x y : TaskPhases) : Prop :=
  forwardStatus x.transcript_status y.transcript_status ∧
  downloadStep x.download_status y.download_status ∧
  forwardStatus x.analysis_status y.analysis_status ∧
  forwardStatus x.conversion_status y.conversion_status

/-- Dependency discipline of one committed row state: a phase is
completed only when every phase it depends on is completed (hence never
while an earlier phase is pending or failed). -/
def depsOK (s : TaskPhases) : Prop :=
  (s.download_status = .completed → s.transcript_status = .completed) ∧
  (s.analysis_status = .completed → s.download_status = .completed) ∧
  (s.conversion_status = .completed → s.analysis_status = .completed)

/-- C1 counterexample: transcript fetched, download completed, then the
availability re-check comes back negative — the download phase is
observed completed at the fourth commit and skipped at the fifth, a
backward transition within one run. -/
theorem phase_backward_transition_cex :
    ((process_single_video
        { tresp := fun _ => .response 200
            (some [.dict { start := 0, duration := 5, text := "hi" }]) false
          autoRegister := fun db => (none, db)
          downloadResult := some "f.mp4"
          available := false
          analysisResult := none
          cutOk := fun _ => true
          uploadOk := fun _ => true }
        sampleDb initialTaskPhases).trace.map TaskPhases.download_status) =
      [.pending, .pending, .downloading, .completed, .skipped] := by
  decide

/-- C1 (amended): from a pending row, every committed transition follows
the §4.4 per-phase orderings — except that a negative availability
re-check moves the download phase from completed back to skipped — and in
every committed state a completed phase has all its dependency phases
completed (never pending or failed). -/
theorem phase_transition_discipline (env : ProcessEnv) (tdb : TranscriptDb) :
    List.Chain' phasesStep
      (process_single_video env tdb initialTaskPhases).trace ∧
    ∀ s ∈ (process_single_video env tdb initialTaskPhases).trace, depsOK s := by
  unfold process_single_video
  dsimp only
  cases hft : (fetch_transcript_with_retry env.tresp env.autoRegister 3 tdb).transcript with
  | none =>
    simp [initialTaskPhases, phasesStep, depsOK, forwardStatus, downloadStep]
  | some t =>
    cases hdl : env.downloadResult with
    | none =>
      simp [initialTaskPhases, phasesStep, depsOK, forwardStatus, downloadStep]
    | some p =>
      dsimp only
      by_cases hav : env.available
      · rw [if_neg (by simpa using hav)]
        cases han : env.analysisResult with
        | none =>
          simp [initialTaskPhases, phasesStep, depsOK, forwardStatus, downloadStep]
        | some segments =>
          dsimp only
          by_cases hcre :
            ((segments.enum.map fun p => (p.1 + 1, p.2)).filter
              fun p => env.cutOk p.1).isEmpty
          · rw [if_pos hcre]
            simp [initialTaskPhases, phasesStep, depsOK, forwardStatus, downloadStep]
          · rw [if_neg hcre]
            simp [initialTaskPhases, phasesStep, depsOK, forwardStatus, downloadStep]
      · rw [if_pos (by simpa using hav)]
        simp [initialTaskPhases, phasesStep, depsOK, forwardStatus, downloadStep]

/-- C2 counterexample: one segment cuts successfully but its upload
fails — zero clips succeed end-to-end, yet the conversion phase ends
completed (not failed), `shorts_count` is 1 although no Artifact row
exists, and the run even reports success. -/
theorem conversion_accounting_cex :
    (process_single_video
        { tresp := fun _ => .response 200
            (some [.dict { start := 0, duration := 5, text := "hi" }]) false
          autoRegister := fun db => (none, db)
          downloadResult := some "f.mp4"
          available := true
          analysisResult := some
            [{ start := 60, «end» := 300, title := "X", description := "Y" }]
          cutOk := fun _ => true
          uploadOk := fun _ => false }
        sampleDb initialTaskPhases).phases.conversion_status = .completed ∧
    (process_single_video
        { tresp := fun _ => .response 200
            (some [.dict { start := 0, duration := 5, text := "hi" }]) false
          autoRegister := fun db => (none, db)
          downloadResult := some "f.mp4"
          available := true
          analysisResult := some
            [{ start := 60, «end» := 300, title := "X", description := "Y" }]
          cutOk := fun _ => true
          uploadOk := fun _ => false }
        sampleDb initialTaskPhases).artifacts = [] ∧
    (process_single_video
        { tresp := fun _ => .response 200
            (some [.dict { start := 0, duration := 5, text := "hi" }]) false
          autoRegister := fun db => (none, db)
          downloadResult := some "f.mp4"
          available := true
          analysisResult := some
            [{ start := 60, «end» := 300, title := "X", description := "Y" }]
          cutOk := fun _ => true
          uploadOk := fun _ => false }
        sampleDb initialTaskPhases).phases.shorts_count = 1 := by
  decide

/-- C2 (amended): a `videos` row (Artifact) is created exactly for the
clips that both cut and upload successfully; but `shorts_count` is set to
the number of clips that CUT successfully, regardless of upload; and the
conversion phase ends failed exactly when zero clips cut successfully —
it is completed (never failed) whenever at least one clip cuts, even if
every upload fails. -/
theorem artifacts_and_conversion_accounting (env : ProcessEnv)
    (tdb : TranscriptDb) (t : List TranscriptEntry)
    (hT : (fetch_transcript_with_retry env.tresp env.autoRegister 3 tdb).transcript =
      some t)
    (p : String) (hD : env.downloadResult = some p)
    (hA : env.available = true)
    (segs : List Segment) (hS : env.analysisResult = some segs) :
    (process_single_video env tdb initialTaskPhases).artifacts =
      (((segs.enum.map fun q => (q.1 + 1, q.2)).filter fun q => env.cutOk q.1).filter
          fun q => env.uploadOk q.1).map (fun q =>
        { title := q.2.title, description := q.2.description,
          duration := q.2.«end» - q.2.start }) ∧
    (process_single_video env tdb initialTaskPhases).phases.shorts_count =
      ((segs.enum.map fun q => (q.1 + 1, q.2)).filter fun q => env.cutOk q.1).length ∧
    ((process_single_video env tdb initialTaskPhases).phases.conversion_status =
        .failed ↔
      ((segs.enum.map fun q => (q.1 + 1, q.2)).filter fun q => env.cutOk q.1) = []) := by
  unfold process_single_video
  dsimp only
  rw [hT]
  dsimp only
  rw [hD]
  dsimp only
  rw [if_neg (by simp [hA]), hS]
  dsimp only
  by_cases hcre :
    ((segs.enum.map fun q => (q.1 + 1, q.2)).filter fun q => env.cutOk q.1).isEmpty
  · rw [if_pos hcre]
    have hnil := List.isEmpty_iff.mp hcre
    simp [initialTaskPhases, hnil]
  · rw [if_neg hcre]
    have hne : ((segs.enum.map fun q => (q.1 + 1, q.2)).filter
        fun q => env.cutOk q.1) ≠ [] := by
      intro hnil
      rw [hnil] at hcre
      exact hcre rfl
    simp [initialTaskPhases, hne]

/-- Concrete instantiation of the amended C2 theorem (the spec's
end-to-end scenario: one 240-second segment, cut and upload both
succeed). -/
theorem artifacts_and_conversion_accounting_witness :
    (process_single_video
        { tresp := fun _ => .response 200
            (some [.dict { start := 0, duration := 900, text := "hi" }]) false
          autoRegister := fun db => (none, db)
          downloadResult := some "f.mp4"
          available := true
          analysisResult := some
            [{ start := 60, «end» := 300, title := "X", description := "Y" }]
          cutOk := fun _ => true
          uploadOk := fun _ => true }
        sampleDb initialTaskPhases).phases.shorts_count =
      List.length
        (List.filter (fun _ => true)
          (List.map (fun q => (q.1 + 1, q.2))
            (List.enum [({ start := 60, «end» := 300, title := "X",
                           description := "Y" } : Segment)]))) :=
  (artifacts_and_conversion_accounting _ sampleDb
    [{ start := 0, duration := 900, text := "hi" }] (by decide) "f.mp4" rfl rfl
    [{ start := 60, «end» := 300, title := "X", description := "Y" }] rfl).2.1

/-- C7: when the transcript endpoint answers the first attempt with HTTP
404 — and identically when it answers successfully with an empty
transcript — the item ends with all four phase statuses skipped, a
no-transcript record is created, and the downloader is never invoked. -/
theorem transcript_404_skips_item (env : ProcessEnv) (tdb : TranscriptDb)
    (k : ApiKey) (hk : tdb.get_active_key = some k)
    (hcase :
      (∃ tb herr, env.tresp 0 = .response 404 tb herr) ∨
      (∃ st raws herr, env.tresp 0 = .response st (some raws) herr ∧ st < 400 ∧
        raws.filterMap (fun e => match e with
          | .dict e => some e
          | .nondict => none) = [])) :
    (process_single_video env tdb initialTaskPhases).phases.transcript_status =
      .skipped ∧
    (process_single_video env tdb initialTaskPhases).phases.download_status =
      .skipped ∧
    (process_single_video env tdb initialTaskPhases).phases.analysis_status =
      .skipped ∧
    (process_single_video env tdb initialTaskPhases).phases.conversion_status =
      .skipped ∧
    (process_single_video env tdb initialTaskPhases).noTranscriptAdded = true ∧
    (process_single_video env tdb initialTaskPhases).downloadAttempted = false := by
  have hfr : (fetch_transcript_with_retry env.tresp env.autoRegister 3 tdb).transcript =
      none := by
    unfold fetch_transcript_with_retry
    rw [show (3 : Nat) = 2 + 1 from rfl, fetch_transcript_go, if_neg (by omega)]
    dsimp only
    rw [hk]
    dsimp only
    rcases hcase with ⟨tb, herr, h404⟩ | ⟨st, raws, herr, hresp, hst, hempty⟩
    · rw [h404]
      dsimp only
      rw [if_neg (by decide), if_pos rfl]
    · rw [hresp]
      dsimp only
      rw [if_neg (by omega), if_neg (by omega), if_neg (by omega)]
      rw [hempty]
      simp
  unfold process_single_video
  dsimp only
  rw [hfr]
  exact ⟨rfl, rfl, rfl, rfl, rfl, rfl⟩

/-- Concrete instantiation of the C7 theorem: a 404 from the transcript
endpoint on a store with one active key. -/
theorem transcript_404_skips_item_witness :
    (process_single_video
        { tresp := fun _ => .response 404 none false
          autoRegister := fun db => (none, db)
          downloadResult := some "f.mp4"
          available := true
          analysisResult := none
          cutOk := fun _ => true
          uploadOk := fun _ => true }
        sampleDb initialTaskPhases).phases.transcript_status = .skipped ∧
    (process_single_video
        { tresp := fun _ => .response 404 none false
          autoRegister := fun db => (none, db)
          downloadResult := some "f.mp4"
          available := true
          analysisResult := none
          cutOk := fun _ => true
          uploadOk := fun _ => true }
        sampleDb initialTaskPhases).phases.download_status = .skipped ∧
    (process_single_video
        { tresp := fun _ => .response 404 none false
          autoRegister := fun db => (none, db)
          downloadResult := some "f.mp4"
          available := true
          analysisResult := none
          cutOk := fun _ => true
          uploadOk := fun _ => true }
        sampleDb initialTaskPhases).phases.analysis_status = .skipped ∧
    (process_single_video
        { tresp := fun _ => .response 404 none false
          autoRegister := fun db => (none, db)
          downloadResult := some "f.mp4"
          available := true
          analysisResult := none
          cutOk := fun _ => true
          uploadOk := fun _ => true }
        sampleDb initialTaskPhases).phases.conversion_status = .skipped ∧
    (process_single_video
        { tresp := fun _ => .response 404 none false
          autoRegister := fun db => (none, db)
          downloadResult := some "f.mp4"
          available := true
          analysisResult := none
          cutOk := fun _ => true
          uploadOk := fun _ => true }
        sampleDb initialTaskPhases).noTranscriptAdded = true ∧
    (process_single_video
        { tresp := fun _ => .response 404 none false
          autoRegister := fun db => (none, db)
          downloadResult := some "f.mp4"
          available := true
          analysisResult := none
          cutOk := fun _ => true
          uploadOk := fun _ => true }
        sampleDb initialTaskPhases).downloadAttempted = false :=
  transcript_404_skips_item _ sampleDb
    { id := 1, service := "transcript_api", api_key := "tk",
      email := none, password := none, status := "active",
      usage_count := 0, last_used := none, disabled_reason := none }
    (by decide) (Or.inl ⟨none, false, rfl⟩)

theorem provisionAfterMailbox_spec (env : ProvisionEnv)
    (extractHtml extractText : String → Option String)
    (db : TranscriptDb) (email : String) (mailbox : Sum Nat String) :
    ((provisionAfterMailbox env extractHtml extractText db email mailbox).1 = none →
      (provisionAfterMailbox env extractHtml extractText db email mailbox).2 = db) ∧
    ((provisionAfterMailbox env extractHtml extractText db email mailbox).2 ≠ db →
      ∃ k, (provisionAfterMailbox env extractHtml extractText db email mailbox).1 =
          some k ∧
        (provisionAfterMailbox env extractHtml extractText db email mailbox).2.rows =
          db.rows ++ [k] ∧
        k.status = "active") := by
  unfold provisionAfterMailbox
  repeat' split
  all_goals try exact ⟨fun _ => rfl, fun hne => absurd rfl hne⟩
  constructor
  · intro h
    exact Option.noConfusion h
  · intro hne
    rename_i new_key db1 heq
    refine ⟨_, rfl, ?_, ?_⟩
    · have h2 := congrArg Prod.snd heq
      have h1 := congrArg Prod.fst heq
      simp only [TranscriptDb.add_key] at h1 h2
      rw [← h2, ← h1]
    · have h1 := congrArg Prod.fst heq
      simp only [TranscriptDb.add_key] at h1
      rw [← h1]

/-- C8: every failing step of the provisioning workflow makes
`auto_register_and_save_key` return the none-available result with the
store untouched (no partial commit); the store changes only when the
final persistence step runs, and then by exactly the one new active
credential row that is returned to the caller.  (The embedded workflow is
a total function: each helper catches its own exceptions, so no path
raises.) -/
theorem provisioning_no_partial_commit (env : ProvisionEnv)
    (extractHtml extractText : String → Option String) (db : TranscriptDb) :
    ((auto_register_and_save_key env extractHtml extractText db).1 = none →
      (auto_register_and_save_key env extractHtml extractText db).2 = db) ∧
    ((auto_register_and_save_key env extractHtml extractText db).2 ≠ db →
      ∃ k, (auto_register_and_save_key env extractHtml extractText db).1 = some k ∧
        (auto_register_and_save_key env extractHtml extractText db).2.rows =
          db.rows ++ [k] ∧
        k.status = "active") := by
  unfold auto_register_and_save_key
  cases henv : env.tempmailCreate with
  | some mb =>
    cases mb with
    | mk email temp_email_id =>
      exact provisionAfterMailbox_spec env extractHtml extractText db email
        (.inl temp_email_id)
  | none =>
    cases henv2 : env.testmailCreate with
    | some mb =>
      cases mb with
      | mk email email_tag =>
        exact provisionAfterMailbox_spec env extractHtml extractText db email
          (.inr email_tag)
    | none =>
      exact ⟨fun _ => rfl, fun hne => absurd rfl hne⟩

/-- Concrete instantiation of the C8 theorem: a run whose login step
fails leaves the store exactly as it was. -/
theorem provisioning_no_partial_commit_witness :
    (auto_register_and_save_key
      { tempmailCreate := some ("a@b.c", 7)
        testmailCreate := none
        registerOk := true
        loginToken := none
        sendOtpOk := true
        testmailMessage := none
        emailList := none
        inboxItems := none
        messageBody := none
        verifyOk := true
        apiKeyFetched := none
        dbSaveOk := true
        password := "pw" }
      (fun _ => none) (fun _ => none) sampleDb).2 = sampleDb :=
  (provisioning_no_partial_commit _ (fun _ => none) (fun _ => none) sampleDb).1
    (by decide)

end OklaShort
